import Mathlib

/-!
Verification of a Dataverse metadata/payload engine.

This file gives a shallow embedding of the core services of the repository
(the TTL metadata cache, the resilient request loop, the metadata resolver
and the payload resolver) and proves or refutes the behavioural claims of
the specification against those definitions.

Conventions of the embedding:
* machine time is `Int` milliseconds (JS `Date.getTime()`),
* a JS `Map` is an association list whose `set` updates an existing key in
  place (keeping its position) and appends a new key at the end,
* JS exceptions are `Except String`,
* JS string operations (`includes`, `startsWith`, `endsWith`, `split`) are
  re-implemented structurally on `List Char` so that concrete runs reduce
  inside the kernel.
-/

set_option autoImplicit false

namespace DV

/-! ## JS string helpers -/

/-- `listLeads pat l` is true when `l` begins with `pat` (char lists). -/
def listLeads : List Char → List Char → Bool
  | [], _ => true
  | _ :: _, [] => false
  | p :: ps, c :: cs => p == c && listLeads ps cs

/-- JS `s.startsWith(pat)`. -/
def strStarts (s pat : String) : Bool :=
  listLeads pat.toList s.toList

/-- JS `s.endsWith(pat)`. -/
def strEnds (s pat : String) : Bool :=
  listLeads pat.toList.reverse s.toList.reverse

/-- Substring occurrence on char lists. -/
def listHas (pat : List Char) : List Char → Bool
  | [] => pat.isEmpty
  | c :: cs => listLeads pat (c :: cs) || listHas pat cs

/-- JS `s.includes(pat)`. -/
def strHas (s pat : String) : Bool :=
  listHas pat.toList s.toList

/-- Drop the last `n` characters of a string (JS `s.substring(0, s.length - n)`). -/
def strDropEnd (s : String) (n : Nat) : String :=
  String.mk (s.toList.take (s.toList.length - n))

/-- JS `s.split(sep)` for a one-character separator. -/
def splitChar (sep : Char) (s : String) : List String :=
  go s.toList [] |>.map String.mk
where
  go : List Char → List Char → List (List Char)
    | [], acc => [acc.reverse]
    | c :: cs, acc => if c == sep then acc.reverse :: go cs [] else go cs (c :: acc)

/-- JS truthiness of an optional string (`undefined`, `null` and `""` are falsy). -/
def truthyStr : Option String → Bool
  | none => false
  | some s => s != ""

/-- JS `a || b` on an optional string with a string default. -/
def jsOrStr (a : Option String) (b : String) : String :=
  match a with
  | none => b
  | some s => if s = "" then b else s

/-- JS `x || null` on an optional string: the empty string collapses to null. -/
def jsStrOrNull : Option String → Option String
  | none => none
  | some s => if s = "" then none else some s

/-! ## Cache store (MetadataCacheService internals)

`CachedItem` mirrors the `{ value, timestamp }` cache entry; a cache class is
an association list with JS `Map` semantics. Reads return the looked-up value
together with the store after the read, because an expired read deletes the
entry as a side effect. -/

structure CachedItem (V : Type) where
  value : V
  timestamp : Int
  deriving Repr, DecidableEq

/-- One cache class: a JS `Map` from composite string keys to cached items. -/
abbrev Store (V : Type) := List (String × CachedItem V)

/-- JS `Map.get`. -/
def storeFind {V : Type} : Store V → String → Option (CachedItem V)
  | [], _ => none
  | e :: es, k => if e.1 = k then some e.2 else storeFind es k

/-- JS `Map.set`: replace in place when the key exists, append otherwise. -/
def storeSet {V : Type} : Store V → String → CachedItem V → Store V
  | [], k, it => [(k, it)]
  | e :: es, k, it => if e.1 = k then (k, it) :: es else e :: storeSet es k it

/-- JS `Map.delete` (a `Map` holds each key at most once, so removing every
occurrence agrees with deleting the key). -/
def storeDelete {V : Type} (st : Store V) (k : String) : Store V :=
  st.filter (fun e => decide (e.1 ≠ k))

/-- `MetadataCacheService.isExpired`: `now.getTime() - timestamp.getTime() >= ttl`. -/
def isExpired (now ts ttl : Int) : Bool :=
  decide (ttl ≤ now - ts)

/-- The shared read pattern of every cache-class getter
(`getTableMetadata`, `getTableDescription`, `getReadableEntityNames`,
`getImportantColumns`, `getEntitySetName`, `getReverseEntitySetName`):
miss on an absent key; delete and miss on an expired entry; hit otherwise. -/
def cacheGet {V : Type} (st : Store V) (k : String) (ttl now : Int) :
    Option V × Store V :=
  match storeFind st k with
  | none => (none, st)
  | some c =>
    if isExpired now c.timestamp ttl then (none, storeDelete st k)
    else (some c.value, st)

/-- The shared write pattern of every cache-class setter: store the value with
a fresh timestamp. -/
def cacheSet {V : Type} (st : Store V) (k : String) (v : V) (now : Int) : Store V :=
  storeSet st k ⟨v, now⟩

/-- Remove every expired entry of one cache class (the per-class loop bodies of
`clearExpired`). -/
def storeSweep {V : Type} (st : Store V) (ttl now : Int) : Store V :=
  st.filter (fun e => !(isExpired now e.2.timestamp ttl))

/-! ## Data model -/

/-- A JS number, modeled as an exact (unnormalized) rational `num/den` with a
positive denominator. The scorer's arithmetic (integer bonuses, fill rates
`k/n`, `× 50`) is exact in this model; none of the proved claims depends on
float64 rounding. -/
structure Q where
  num : Int
  den : Int
  deriving Repr, DecidableEq

instance (n : Nat) : OfNat Q n := ⟨⟨(n : Int), 1⟩⟩

instance : NatCast Q := ⟨fun n => ⟨(n : Int), 1⟩⟩

instance : IntCast Q := ⟨fun i => ⟨i, 1⟩⟩

instance : Add Q := ⟨fun a b => ⟨a.num * b.den + b.num * a.den, a.den * b.den⟩⟩

instance : Mul Q := ⟨fun a b => ⟨a.num * b.num, a.den * b.den⟩⟩

instance : Div Q :=
  ⟨fun a b =>
    let n := a.num * b.den
    let d := a.den * b.num
    if d < 0 then ⟨-n, -d⟩ else ⟨n, d⟩⟩

instance : LT Q := ⟨fun a b => a.num * b.den < b.num * a.den⟩

instance : LE Q := ⟨fun a b => a.num * b.den ≤ b.num * a.den⟩

instance (a b : Q) : Decidable (a < b) :=
  inferInstanceAs (Decidable (a.num * b.den < b.num * a.den))

instance (a b : Q) : Decidable (a ≤ b) :=
  inferInstanceAs (Decidable (a.num * b.den ≤ b.num * a.den))

instance : BEq Q := ⟨fun a b => a.num * b.den == b.num * a.den⟩

/-- Floor of a rational with positive denominator. -/
def Q.floor (q : Q) : Int := q.num.fdiv q.den

/-- A JSON/JS value as it appears in caller payloads and synthesized examples. -/
inductive Jv where
  | vStr (s : String)
  | vNum (q : Q)
  | vBool (b : Bool)
  | vNull
  | vObj (fields : List (String × Jv))

/-- JS truthiness of a value. -/
def Jv.truthy : Jv → Bool
  | .vStr s => s != ""
  | .vNum q => q != 0
  | .vBool b => b
  | .vNull => false
  | .vObj _ => true

/-- JS string coercion as used in template literals. Integral numbers render
exactly; other numbers and objects only occur in runs this file never relies
on, and get a fixed rendering. -/
def Jv.toStr : Jv → String
  | .vStr s => s
  | .vNum q => if q.den = 1 then toString q.num else toString q.num ++ "/" ++ toString q.den
  | .vBool b => if b then "true" else "false"
  | .vNull => "null"
  | .vObj _ => "[object Object]"

/-- JS truthiness of an optional value (`undefined` is falsy). -/
def jsTruthy : Option Jv → Bool
  | none => false
  | some v => v.truthy

/-- JS string coercion of a possibly-undefined value. -/
def jsToStrOpt : Option Jv → String
  | none => "undefined"
  | some v => v.toStr

/-- A JS object (own enumerable string keys, insertion order). -/
abbrev JsObj := List (String × Jv)

/-- JS property read `obj[key]` (`none` models `undefined`). -/
def jsObjGet : JsObj → String → Option Jv
  | [], _ => none
  | e :: es, k => if e.1 = k then some e.2 else jsObjGet es k

/-- JS property write `obj[key] = v`: updates in place, appends when new. -/
def jsObjSet : JsObj → String → Jv → JsObj
  | [], k, v => [(k, v)]
  | e :: es, k, v => if e.1 = k then (k, v) :: es else e :: jsObjSet es k v

/-- JS `delete obj[key]`. -/
def jsObjDelete (o : JsObj) (k : String) : JsObj :=
  o.filter (fun e => decide (e.1 ≠ k))

/-- JS `obj.hasOwnProperty(key)`. -/
def jsObjHas (o : JsObj) (k : String) : Bool :=
  (jsObjGet o k).isSome

/-- One `{ value, label }` entry of `AttributeDescription.optionSet`. -/
structure OptionPair where
  value : Int
  label : String
  deriving Repr, DecidableEq

/-- `AttributeDescription` of `types/dataverse.ts` (the fields produced by
`MetadataService.createAttributeDescription` plus the optional `targets` and
`optionSet` fields consumed by the payload resolver). -/
structure AttributeDescription where
  logicalName : String
  displayName : String
  description : Option String
  type : String
  isPrimaryId : Bool
  isPrimaryName : Bool
  isRequired : Bool
  isReadOnly : Bool
  maxLength : Option Int
  format : Option String
  exampleValue : Jv
  targets : Option (List String)
  optionSet : Option (List OptionPair)

/-- `TableDescription` of `types/dataverse.ts`. `primaryIdAttribute` and
`primaryNameAttribute` are optional because they are copied from parsed JSON
and may be absent at runtime. -/
structure TableDescription where
  logicalName : String
  displayName : String
  description : Option String
  primaryIdAttribute : Option String
  primaryNameAttribute : Option String
  attributes : List AttributeDescription
  sampleRecord : JsObj

/-- `TableMetadata` of `types/dataverse.ts` (`collectionName` is
`EntitySetName || null`). -/
structure TableMetadata where
  logicalName : String
  displayName : String
  collectionName : Option String
  description : Option String
  deriving Repr, DecidableEq

/-! ## MetadataCacheService -/

namespace MetadataCacheService

/-- The six cache classes of `MetadataCacheService`. -/
structure CacheState where
  tableMetadataCache : Store (List TableMetadata)
  tableDescriptionCache : Store TableDescription
  entitySetNameCache : Store String
  reverseEntitySetNameCache : Store String
  importantColumnsCache : Store (List String)
  readableEntityNamesCache : Store (List String)

/-- A fresh service instance. -/
def emptyCache : CacheState := ⟨[], [], [], [], [], []⟩

def tableMetadataTTL : Int := 24 * 60 * 60 * 1000
def tableDescriptionTTL : Int := 24 * 60 * 60 * 1000
def entitySetNameTTL : Int := 24 * 60 * 60 * 1000
def importantColumnsTTL : Int := 24 * 60 * 60 * 1000
def readableEntityNamesTTL : Int := 24 * 60 * 60 * 1000

def getTableMetadata (st : CacheState) (now : Int) (dataverseUrl : String) :
    Option (List TableMetadata) × CacheState :=
  let r := cacheGet st.tableMetadataCache (dataverseUrl ++ "_tables") tableMetadataTTL now
  (r.1, { st with tableMetadataCache := r.2 })

def setTableMetadata (st : CacheState) (now : Int) (dataverseUrl : String)
    (tables : List TableMetadata) : CacheState :=
  { st with tableMetadataCache :=
      cacheSet st.tableMetadataCache (dataverseUrl ++ "_tables") tables now }

def getTableDescription (st : CacheState) (now : Int) (dataverseUrl tableName : String)
    (full : Bool) : Option TableDescription × CacheState :=
  let key := dataverseUrl ++ "_" ++ tableName ++ "_" ++ (if full then "true" else "false")
  let r := cacheGet st.tableDescriptionCache key tableDescriptionTTL now
  (r.1, { st with tableDescriptionCache := r.2 })

def setTableDescription (st : CacheState) (now : Int) (dataverseUrl tableName : String)
    (d : TableDescription) (full : Bool) : CacheState :=
  let key := dataverseUrl ++ "_" ++ tableName ++ "_" ++ (if full then "true" else "false")
  { st with tableDescriptionCache := cacheSet st.tableDescriptionCache key d now }

def getReadableEntityNames (st : CacheState) (now : Int) (dataverseUrl userId : String) :
    Option (List String) × CacheState :=
  let key := dataverseUrl ++ "_" ++ userId ++ "_readableEntityNames"
  let r := cacheGet st.readableEntityNamesCache key readableEntityNamesTTL now
  (r.1, { st with readableEntityNamesCache := r.2 })

def setReadableEntityNames (st : CacheState) (now : Int) (dataverseUrl userId : String)
    (names : List String) : CacheState :=
  let key := dataverseUrl ++ "_" ++ userId ++ "_readableEntityNames"
  { st with readableEntityNamesCache := cacheSet st.readableEntityNamesCache key names now }

def importantColumnsKey (dataverseUrl tableName : String) (userId : Option String) : String :=
  match userId with
  | some uid => dataverseUrl ++ "_" ++ uid ++ "_" ++ tableName ++ "_important"
  | none => dataverseUrl ++ "_" ++ tableName ++ "_important"

def getImportantColumns (st : CacheState) (now : Int) (dataverseUrl tableName : String)
    (userId : Option String) : Option (List String) × CacheState :=
  let r := cacheGet st.importantColumnsCache
    (importantColumnsKey dataverseUrl tableName userId) importantColumnsTTL now
  (r.1, { st with importantColumnsCache := r.2 })

def setImportantColumns (st : CacheState) (now : Int) (dataverseUrl tableName : String)
    (columns : List String) (userId : Option String) : CacheState :=
  let key := importantColumnsKey dataverseUrl tableName userId
  { st with importantColumnsCache := cacheSet st.importantColumnsCache key columns now }

def getEntitySetName (st : CacheState) (now : Int) (dataverseUrl logicalName : String) :
    Option String × CacheState :=
  let r := cacheGet st.entitySetNameCache (dataverseUrl ++ "_" ++ logicalName)
    entitySetNameTTL now
  (r.1, { st with entitySetNameCache := r.2 })

def setEntitySetName (st : CacheState) (now : Int) (dataverseUrl logicalName entitySetName : String) :
    CacheState :=
  let key := dataverseUrl ++ "_" ++ logicalName
  { st with entitySetNameCache := cacheSet st.entitySetNameCache key entitySetName now }

def getReverseEntitySetName (st : CacheState) (now : Int) (dataverseUrl entitySetName : String) :
    Option String × CacheState :=
  let r := cacheGet st.reverseEntitySetNameCache (dataverseUrl ++ "_" ++ entitySetName)
    entitySetNameTTL now
  (r.1, { st with reverseEntitySetNameCache := r.2 })

/-- The reverse cache stores the entity set name itself as the value
(`entity set name -> entity set name` in the source's words). -/
def setReverseEntitySetName (st : CacheState) (now : Int) (dataverseUrl entitySetName : String) :
    CacheState :=
  let key := dataverseUrl ++ "_" ++ entitySetName
  { st with reverseEntitySetNameCache := cacheSet st.reverseEntitySetNameCache key entitySetName now }

def setEntitySetNameBidirectional (st : CacheState) (now : Int)
    (dataverseUrl logicalName entitySetName : String) : CacheState :=
  setReverseEntitySetName (setEntitySetName st now dataverseUrl logicalName entitySetName)
    now dataverseUrl entitySetName

/-- `ensureSystemEntities`: pre-seed the three well-known system tables when
their forward mapping is not already cached. -/
def ensureSystemEntities (st : CacheState) (now : Int) (dataverseUrl : String) : CacheState :=
  [("systemuser", "systemusers"), ("businessunit", "businessunits"),
   ("organization", "organizations")].foldl
    (fun st e =>
      let (v, st) := getEntitySetName st now dataverseUrl e.1
      if truthyStr v then st
      else setEntitySetNameBidirectional st now dataverseUrl e.1 e.2)
    st

/-- `clearExpired`: the explicit sweep. The source iterates over five of the
six cache classes; `readableEntityNamesCache` has no sweep loop. -/
def clearExpired (st : CacheState) (now : Int) : CacheState :=
  { tableMetadataCache := storeSweep st.tableMetadataCache tableMetadataTTL now
    tableDescriptionCache := storeSweep st.tableDescriptionCache tableDescriptionTTL now
    entitySetNameCache := storeSweep st.entitySetNameCache entitySetNameTTL now
    reverseEntitySetNameCache := storeSweep st.reverseEntitySetNameCache entitySetNameTTL now
    importantColumnsCache := storeSweep st.importantColumnsCache importantColumnsTTL now
    readableEntityNamesCache := st.readableEntityNamesCache }

/-- `clearAll` (the source clears five maps; `readableEntityNamesCache` is not
cleared there either). -/
def clearAll (st : CacheState) : CacheState :=
  { tableMetadataCache := []
    tableDescriptionCache := []
    entitySetNameCache := []
    reverseEntitySetNameCache := []
    importantColumnsCache := []
    readableEntityNamesCache := st.readableEntityNamesCache }

def clearImportantColumnsCache (st : CacheState) : CacheState :=
  { st with importantColumnsCache := [] }

def clearTableDescriptionsCache (st : CacheState) : CacheState :=
  { st with tableDescriptionCache := [] }

end MetadataCacheService

/-- Concrete cache state for the sweep claim: one table-list entry and one
readable-entity-names entry, both written at time 0. -/
def sweepState : MetadataCacheService.CacheState :=
  { MetadataCacheService.emptyCache with
    tableMetadataCache := [("u_tables", ⟨[], 0⟩)]
    readableEntityNamesCache := [("u_uid_readableEntityNames", ⟨["account"], 0⟩)] }

/-! ## DataverseWebApiService (resilient request client)

The retry loops of `sendRequest` and `sendRequestString` are embedded as
recursion on the remaining retry budget (`remaining = maxRetries - attempt`,
so `remaining = 0` is the JS test `attempt === maxRetries`). The remote is an
oracle `responses : Nat → Resp` giving the response of each attempt. Each
call returns the outcome together with the trace of attempts made, and every
attempt records the bearer token attached to its `Authorization` header.
Backoff sleeping and session-token capture have no influence on outcome,
attempt count or tokens, and are not recorded. -/

namespace DataverseWebApiService

/-- An HTTP response as observed by the retry loop. -/
structure Resp where
  status : Nat
  body : String
  retryAfter : Option Nat
  deriving Repr, DecidableEq

/-- `Response.ok` of fetch: status in the 200-299 range. -/
def respOk (r : Resp) : Bool :=
  200 ≤ r.status && r.status < 300

/-- Terminal errors of the request loop. -/
inductive SendErr where
  | rateLimitExceeded
  | remoteApiError (status : Nat) (body : String)
  deriving Repr, DecidableEq

/-- One request attempt: its index and the bearer token it carried. -/
structure Attempt where
  index : Nat
  token : String
  deriving Repr, DecidableEq

/-- Loop body of `sendRequestString`: the access token is the caller-supplied
parameter, so every attempt attaches the same `accessToken`. -/
def sendStringAux (accessToken : String) (responses : Nat → Resp) :
    Nat → Nat → Except SendErr String × List Attempt
  | attempt, remaining =>
    let r := responses attempt
    let att : Attempt := ⟨attempt, accessToken⟩
    if r.status = 429 then
      match remaining with
      | 0 => (.error .rateLimitExceeded, [att])
      | n + 1 =>
        let rec2 := sendStringAux accessToken responses (attempt + 1) n
        (rec2.1, att :: rec2.2)
    else if respOk r then (.ok r.body, [att])
    else (.error (.remoteApiError r.status r.body), [att])

/-- `sendRequestString(accessToken, method, path, body?)`. -/
def sendRequestString (maxRetries : Nat) (accessToken : String)
    (responses : Nat → Resp) : Except SendErr String × List Attempt :=
  sendStringAux accessToken responses 0 maxRetries

/-- Loop body of `sendRequest`: `config.getAccessToken()` is awaited inside
the loop, once per iteration, so attempt `i` carries the i-th acquisition
`getAccessToken i`. -/
def sendReqAux (getAccessToken : Nat → String) (responses : Nat → Resp) :
    Nat → Nat → Except SendErr String × List Attempt
  | attempt, remaining =>
    let r := responses attempt
    let att : Attempt := ⟨attempt, getAccessToken attempt⟩
    if r.status = 429 then
      match remaining with
      | 0 => (.error .rateLimitExceeded, [att])
      | n + 1 =>
        let rec2 := sendReqAux getAccessToken responses (attempt + 1) n
        (rec2.1, att :: rec2.2)
    else if respOk r then (.ok r.body, [att])
    else (.error (.remoteApiError r.status r.body), [att])

/-- `sendRequest(path, method, body?)`. -/
def sendRequest (maxRetries : Nat) (getAccessToken : Nat → String)
    (responses : Nat → Resp) : Except SendErr String × List Attempt :=
  sendReqAux getAccessToken responses 0 maxRetries

end DataverseWebApiService

/-- A remote that always answers HTTP 429. -/
def always429 : Nat → DataverseWebApiService.Resp :=
  fun _ => ⟨429, "", none⟩

/-- A remote that answers 429 on the first attempt and 200 afterwards. -/
def once429then200 : Nat → DataverseWebApiService.Resp :=
  fun i => if i = 0 then ⟨429, "", none⟩ else ⟨200, "hello", none⟩

/-- The distinguishable credential provider used in the token-reuse
counterexample: the i-th acquisition is the string `tok<i>`. -/
def tokenProvider : Nat → String :=
  fun i => "tok" ++ toString i

/-! ## Stable sort

JS `Array.prototype.sort` with a comparator over a total preorder is a
stable sort, which is the unique stable order-preserving rearrangement;
a stable insertion sort realizes the same function. `localeCompare` on
display names is approximated by code-unit order (the claims never depend
on the collation of the table list). -/

def insertBy {α : Type} (le : α → α → Bool) (x : α) : List α → List α
  | [] => [x]
  | y :: ys => if le x y then x :: y :: ys else y :: insertBy le x ys

def sortBy {α : Type} (le : α → α → Bool) : List α → List α
  | [] => []
  | x :: xs => insertBy le x (sortBy le xs)

/-! ## MetadataService: identifier resolution and table listing -/

namespace MetadataService

open MetadataCacheService

/-- One parsed entity of an `EntityDefinitions` response (each field may be
absent in the JSON). -/
structure EntityDef where
  logicalName : Option String
  displayLabel : Option String
  entitySetName : Option String
  descriptionLabel : Option String
  deriving Repr, DecidableEq

/-- The collaborators of a `MetadataService` call: the service handle
(instance URL, user id), the clock, and the remote endpoints it may hit.
`privileges` is the parsed `PrivilegeName` list of `RetrieveUserPrivileges`
(a response without `RolePrivileges` is the empty list); `entityDefs` answers
one batched `EntityDefinitions` query (a response without `value` is the
empty list); `singleEntityDef` answers the direct single-table
`EntityDefinitions(LogicalName=...)` query with its `EntitySetName` field.
Remote or JSON failures are `.error`. -/
structure MetaEnv where
  dataverseUrl : String
  userId : Option String
  now : Int
  privileges : Except String (List String)
  entityDefs : List String → Except String (List EntityDef)
  singleEntityDef : String → Except String (Option String)

/-- Batch an entity-name list into slices of 100 (the `batchSize` loop of
`listTables`), by fuel on the list length. -/
def chunkAux {α : Type} : Nat → List α → List (List α)
  | _, [] => []
  | 0, _ :: _ => []
  | fuel + 1, x :: xs => ((x :: xs).take 100) :: chunkAux fuel ((x :: xs).drop 100)

def batches100 {α : Type} (l : List α) : List (List α) :=
  chunkAux l.length l

/-- `getReadableEntityNames`: throws without a user id; otherwise serves the
per-user cache, or derives the readable-entity set from the `prvRead...`
privileges (a JS `Set`: deduplicated, insertion order) and caches it. -/
def getReadableEntityNames (env : MetaEnv) (st : CacheState) :
    Except String (List String × CacheState) :=
  match env.userId with
  | none => .error "User ID not available. Service may not be initialized."
  | some uid =>
    let r := MetadataCacheService.getReadableEntityNames st env.now env.dataverseUrl uid
    match r.1 with
    | some names => .ok (names, r.2)
    | none =>
      match env.privileges with
      | .error e => .error e
      | .ok privNames =>
        let readableEntityNames := privNames.foldl
          (fun acc p =>
            if strStarts p "prvRead" then
              let entityName := (String.mk (p.toList.drop 7)).toLower
              if acc.contains entityName then acc else acc ++ [entityName]
            else acc)
          []
        let st := setReadableEntityNames r.2 env.now env.dataverseUrl uid readableEntityNames
        .ok (readableEntityNames, st)

/-- The `TableMetadata` record built for one response entity
(`LogicalName || ""`, display label `|| logicalName`,
`EntitySetName || null`, description label `|| null`). -/
def tableOfEntityDef (d : EntityDef) : TableMetadata :=
  let logicalName := jsOrStr d.logicalName ""
  { logicalName := logicalName
    displayName := jsOrStr d.displayLabel logicalName
    collectionName := jsStrOrNull d.entitySetName
    description := jsStrOrNull d.descriptionLabel }

/-- Per-entity loop body of `listTables`: cache the bidirectional mapping when
both names are truthy, and push the table record. -/
def entityStep (env : MetaEnv) (acc : List TableMetadata × CacheState) (d : EntityDef) :
    List TableMetadata × CacheState :=
  let t := tableOfEntityDef d
  let st :=
    if t.logicalName != "" && truthyStr t.collectionName then
      setEntitySetNameBidirectional acc.2 env.now env.dataverseUrl t.logicalName
        (t.collectionName.getD "")
    else acc.2
  (acc.1 ++ [t], st)

/-- Per-batch loop body of `listTables`: one `EntityDefinitions` query. -/
def listTablesStep (env : MetaEnv) (acc : List TableMetadata × CacheState)
    (batch : List String) : Except String (List TableMetadata × CacheState) := do
  let defs ← env.entityDefs batch
  pure (defs.foldl (entityStep env) acc)

/-- `listTables`: serve the cached table list, or fetch the readable entity
names, query `EntityDefinitions` in batches of 100, sort by display name and
cache the result. -/
def listTables (env : MetaEnv) (st : CacheState) :
    Except String (List TableMetadata × CacheState) := do
  let c := getTableMetadata st env.now env.dataverseUrl
  match c.1 with
  | some cachedData => pure (cachedData, c.2)
  | none => do
    let (readableEntityNames, st) ← getReadableEntityNames env c.2
    let (tables, st) ← (batches100 readableEntityNames).foldlM (listTablesStep env) ([], st)
    let tables := sortBy (fun a b => decide (a.displayName ≤ b.displayName)) tables
    let st := setTableMetadata st env.now env.dataverseUrl tables
    pure (tables, st)

/-- `resolveLogicalName`: reverse entity-set cache, forward cache identity
case, cached table list, table-list refresh and retry, then the raw input
unchanged. A failure of the embedded `listTables` call propagates. -/
def resolveLogicalName (env : MetaEnv) (st : CacheState) (tableOrSetName : String) :
    Except String (String × CacheState) :=
  let st := ensureSystemEntities st env.now env.dataverseUrl
  let r1 := getReverseEntitySetName st env.now env.dataverseUrl tableOrSetName
  if truthyStr r1.1 then .ok (r1.1.getD "", r1.2)
  else
    let r2 := MetadataCacheService.getEntitySetName r1.2 env.now env.dataverseUrl tableOrSetName
    if truthyStr r2.1 then .ok (tableOrSetName, r2.2)
    else
      let r3 := getTableMetadata r2.2 env.now env.dataverseUrl
      let matched : Option TableMetadata := match r3.1 with
        | some allTables => allTables.find? (fun t => decide (t.collectionName = some tableOrSetName))
        | none => none
      match matched with
      | some m => .ok (m.logicalName, r3.2)
      | none => do
        let (_, st) ← listTables env r3.2
        let r4 := getTableMetadata st env.now env.dataverseUrl
        let matched2 : Option TableMetadata := match r4.1 with
          | some allTables2 => allTables2.find? (fun t => decide (t.collectionName = some tableOrSetName))
          | none => none
        match matched2 with
        | some m => pure (m.logicalName, r4.2)
        | none => pure (tableOrSetName, r4.2)

/-- `getEntitySetName` of `MetadataService`: reverse cache, forward cache,
refresh and retry both, then a direct single-table metadata query (whose
failure is swallowed), and finally a terminal error. -/
def getEntitySetName (env : MetaEnv) (st : CacheState) (tableName : String) :
    Except String (String × CacheState) :=
  let st := ensureSystemEntities st env.now env.dataverseUrl
  let r1 := getReverseEntitySetName st env.now env.dataverseUrl tableName
  if truthyStr r1.1 then .ok (r1.1.getD "", r1.2)
  else
    let r2 := MetadataCacheService.getEntitySetName r1.2 env.now env.dataverseUrl tableName
    if truthyStr r2.1 then .ok (r2.1.getD "", r2.2)
    else do
      let (_, st) ← listTables env r2.2
      let r3 := getReverseEntitySetName st env.now env.dataverseUrl tableName
      if truthyStr r3.1 then pure (r3.1.getD "", r3.2)
      else
        let r4 := MetadataCacheService.getEntitySetName r3.2 env.now env.dataverseUrl tableName
        if truthyStr r4.1 then pure (r4.1.getD "", r4.2)
        else
          match env.singleEntityDef tableName with
          | .ok esOpt =>
            if truthyStr esOpt then
              let es := esOpt.getD ""
              let st := setEntitySetNameBidirectional r4.2 env.now env.dataverseUrl tableName es
              pure (es, st)
            else .error ("Could not find entity set name for table " ++ tableName)
          | .error _ => .error ("Could not find entity set name for table " ++ tableName)

end MetadataService

/-- Value projection of a resolver outcome. -/
def resName : Except String (String × MetadataCacheService.CacheState) → Option String
  | .ok p => some p.1
  | .error _ => none

/-- Error projection of a resolver outcome. -/
def resErr : Except String (String × MetadataCacheService.CacheState) → Option String
  | .ok _ => none
  | .error e => some e

/-- An environment whose every remote endpoint fails and that carries no user
id (the state of an uninitialized service handle). -/
def deadEnv : MetadataService.MetaEnv :=
  { dataverseUrl := "u", userId := none, now := 0
    privileges := .error "remote down", entityDefs := fun _ => .error "remote down"
    singleEntityDef := fun _ => .error "remote down" }

/-- Cache state after `setEntitySetNameBidirectional(u, "contact", "contacts")`
on a fresh cache. -/
def c4State : MetadataCacheService.CacheState :=
  MetadataCacheService.setEntitySetNameBidirectional MetadataCacheService.emptyCache
    0 "u" "contact" "contacts"

/-- An initialized environment whose remote reports no privileges and no
entity definitions: every refresh succeeds but resolves nothing. -/
def liveEnv : MetadataService.MetaEnv :=
  { dataverseUrl := "u", userId := some "uid", now := 0
    privileges := .ok [], entityDefs := fun _ => .ok []
    singleEntityDef := fun _ => .ok none }

/-! ## MetadataService: table description and the important-fields scorer -/

/-- JS `Map.set` for generic association maps (replace in place, else append). -/
def assocSet {V : Type} : List (String × V) → String → V → List (String × V)
  | [], k, v => [(k, v)]
  | e :: es, k, v => if e.1 = k then (k, v) :: es else e :: assocSet es k v

namespace MetadataService

/-- One `{ Value, Label }` option of an attribute option set. -/
structure OptionMeta where
  value : Int
  label : Option String

/-- `OptionSet` metadata of an attribute. -/
structure OptionSetMeta where
  name : Option String
  isGlobal : Option Bool
  options : List OptionMeta

/-- `AttributeMetadata` as parsed from an `EntityDefinitions` expansion.
Boolean flags that the source only ever reads through `||`/truthiness are
plain `Bool` (absent collapses to `false`); `IsValidForCreate` and
`IsValidForUpdate` stay optional because the source distinguishes
`=== false` from `!x`. -/
structure AttributeMetadata where
  logicalName : String
  displayLabel : Option String
  descriptionLabel : Option String
  attributeTypeName : Option String
  isPrimaryId : Bool
  isPrimaryName : Bool
  isValidForRead : Bool
  isValidForCreate : Option Bool
  isValidForUpdate : Option Bool
  requiredLevel : Option String
  attributeOf : Option String
  isLogical : Option Bool
  maxLength : Option Int
  format : Option String
  optionSet : Option OptionSetMeta
  targets : Option (List String)

/-- `isVirtualAnnotationProperty` (the variant with the full suffix list). -/
def isVirtualAnnotationProperty (attr : AttributeMetadata)
    (primaryNameAttribute : Option String) : Bool :=
  let name := attr.logicalName
  if truthyStr primaryNameAttribute && primaryNameAttribute == some name then false
  else
    ["idname", "idtype", "idyominame", "name", "typecodename",
     "addresstypecodename"].any (fun suffx => strEnds name suffx)

/-- `generateSyntheticValue`: the deterministic per-type example value
(`new Date().toISOString()` is the `nowISO` parameter). -/
def generateSyntheticValue (attr : AttributeMetadata) (nowISO : String) : Jv :=
  let logicalName := attr.logicalName.toLower
  if attr.isPrimaryId then .vStr "00000000-0000-0000-0000-000000000000"
  else
    match attr.attributeTypeName with
    | some "StringType" | some "MemoType" =>
      if strHas logicalName "email" then .vStr "user@example.com"
      else if strHas logicalName "phone" || strHas logicalName "telephone" then
        .vStr "+1-555-0100"
      else if strHas logicalName "url" || strHas logicalName "website" then
        .vStr "https://example.com"
      else if strHas logicalName "name" then .vStr "Sample Name"
      else if strHas logicalName "description" || strHas logicalName "notes" then
        .vStr "Sample description text"
      else if strHas logicalName "address" then .vStr "123 Main Street"
      else if strHas logicalName "city" then .vStr "Seattle"
      else if strHas logicalName "zip" || strHas logicalName "postal" then .vStr "98101"
      else if strHas logicalName "country" then .vStr "USA"
      else .vStr "Sample text"
    | some "IntegerType" =>
      if strHas logicalName "count" || strHas logicalName "number" then .vNum 42
      else if strHas logicalName "age" then .vNum 30
      else .vNum 100
    | some "DecimalType" | some "DoubleType" | some "MoneyType" =>
      if strHas logicalName "price" || strHas logicalName "amount"
          || strHas logicalName "revenue" then .vNum (123456 / 100)
      else if strHas logicalName "percent" || strHas logicalName "rate" then
        .vNum (15 / 100)
      else .vNum (9999 / 100)
    | some "BooleanType" => .vBool true
    | some "DateTimeType" => .vStr nowISO
    | some "PicklistType" | some "StateType" | some "StatusType" =>
      match attr.optionSet with
      | some os =>
        match os.options with
        | firstOption :: _ =>
          .vObj [("value", .vNum (firstOption.value : Q)),
                 ("label", .vStr (jsOrStr firstOption.label
                   ("Option " ++ toString firstOption.value)))]
        | [] => .vObj [("value", .vNum 1), ("label", .vStr "Sample Option")]
      | none => .vObj [("value", .vNum 1), ("label", .vStr "Sample Option")]
    | some "LookupType" | some "CustomerType" | some "OwnerType" =>
      let targetEntity := jsOrStr (attr.targets.bind List.head?) "entity"
      .vObj [("id", .vStr "00000000-0000-0000-0000-000000000000"),
             ("entityType", .vStr targetEntity),
             ("name", .vStr ("Sample " ++ targetEntity))]
    | some "UniqueidentifierType" => .vStr "00000000-0000-0000-0000-000000000000"
    | _ => .vNull

/-- `createAttributeDescription`: note `isReadOnly` uses JS `!x` (so an absent
flag counts as not-settable), and `targets`/`optionSet` are not copied. -/
def createAttributeDescription (attr : AttributeMetadata) (nowISO : String) :
    AttributeDescription :=
  { logicalName := attr.logicalName
    displayName := jsOrStr attr.displayLabel attr.logicalName
    description := attr.descriptionLabel
    type := jsOrStr attr.attributeTypeName "Unknown"
    isPrimaryId := attr.isPrimaryId
    isPrimaryName := attr.isPrimaryName
    isRequired := attr.requiredLevel == some "ApplicationRequired"
      || attr.requiredLevel == some "SystemRequired"
    isReadOnly := !(attr.isValidForCreate == some true)
      && !(attr.isValidForUpdate == some true)
    maxLength := attr.maxLength
    format := attr.format
    exampleValue := generateSyntheticValue attr nowISO
    targets := none
    optionSet := none }

/-- A sampled record, reduced to the only observation the scorer makes of it:
whether field `name` is present with a non-null, non-empty value
(`r[name] != null && r[name] !== ""`). -/
abbrev SampleRec := String → Bool

/-- `FieldImportance` of `types/dataverse.ts`. -/
structure FieldImportance where
  logicalName : String
  score : Q
  reason : String

/-- JS `Math.round` (half away from zero rounds up for the non-negative
rates used here). -/
def qRound (q : Q) : Int := (q + 1 / 2).floor

/-- The metadata-only fallback scorer (`getImportantFieldsFromMetadata`). -/
def getImportantFieldsFromMetadata (attributes : List AttributeMetadata) : List String :=
  ((attributes.filter (fun attr =>
      let hasAttributeOf := attr.attributeOf.isSome
      let isLogical := attr.isLogical == some true
      let isReadOnlyComputed := attr.isValidForCreate == some false
        && attr.isValidForUpdate == some false
      attr.isValidForRead
        && !isVirtualAnnotationProperty attr none
        && !hasAttributeOf && !isLogical && !isReadOnlyComputed
        && (attr.isPrimaryId || attr.isPrimaryName
          || attr.requiredLevel == some "ApplicationRequired"
          || attr.requiredLevel == some "SystemRequired"
          || strHas attr.logicalName "name"
          || strHas attr.logicalName "email"
          || attr.logicalName == "statecode"
          || attr.logicalName == "statuscode"))).take 15).map
    (fun a => a.logicalName)

/-- `determineImportantFields`: samples up to 50 records (here: the parsed
record list or the thrown error, which the `catch` turns into the metadata
fallback), scores the selectable attributes and returns the top 15 by score,
descending, ties kept in original order (JS stable sort). -/
def determineImportantFields (entitySetName : String)
    (attributes : List AttributeMetadata)
    (sample : Except String (List SampleRec)) : List String :=
  match sample with
  | .error _ => getImportantFieldsFromMetadata attributes
  | .ok records =>
    if records.length = 0 then getImportantFieldsFromMetadata attributes
    else
      let selectableAttributes := attributes.foldl
        (fun m attr =>
          if !attr.isValidForRead || strStarts attr.logicalName "_" then m
          else if isVirtualAnnotationProperty attr (some entitySetName) then m
          else
            let hasAttributeOf := attr.attributeOf.isSome
            let isLogical := attr.isLogical == some true
            let isReadOnlyComputed := attr.isValidForCreate == some false
              && attr.isValidForUpdate == some false
            if hasAttributeOf || isLogical || isReadOnlyComputed then m
            else assocSet m attr.logicalName attr)
        ([] : List (String × AttributeMetadata))
      let fieldScores := selectableAttributes.foldl
        (fun m entry =>
          let logicalName := entry.1
          let attr := entry.2
          let s1 : Q := if attr.isPrimaryId then 1000 else 0
          let rs1 : List String := if attr.isPrimaryId then ["primary ID"] else []
          let s2 := if attr.isPrimaryName then s1 + 900 else s1
          let rs2 := if attr.isPrimaryName then rs1 ++ ["primary name"] else rs1
          let isReq := attr.requiredLevel == some "ApplicationRequired"
            || attr.requiredLevel == some "SystemRequired"
          let s3 := if isReq then s2 + 100 else s2
          let rs3 := if isReq then rs2 ++ ["required"] else rs2
          let nonNullCount := (records.filter (fun r => r attr.logicalName)).length
          let fillRate : Q := (nonNullCount : Q) / (records.length : Q)
          let s4 := if fillRate > 1 / 2 then s3 + fillRate * 50 else s3
          let rs4 := if fillRate > 1 / 2 then
              rs3 ++ [toString (qRound (fillRate * 100)) ++ "% populated"]
            else rs3
          let importantNames := ["name", "title", "subject", "email", "phone",
            "status", "state"]
          let isCommon := importantNames.any (fun n => strHas attr.logicalName n)
          let s5 := if isCommon then s4 + 30 else s4
          let rs5 := if isCommon then rs4 ++ ["common field"] else rs4
          if s5 > 0 then
            assocSet m logicalName
              ⟨logicalName, s5, String.intercalate ", " rs5⟩
          else m)
        ([] : List (String × FieldImportance))
      let sortedFields := (sortBy (fun a b => decide (b.score ≤ a.score))
        (fieldScores.map Prod.snd)).take 15
      sortedFields.map (fun f => f.logicalName)

/-- The entity metadata of one `EntityDefinitions(LogicalName=..)?$expand=Attributes`
response. -/
structure EntityMeta where
  logicalName : String
  displayLabel : Option String
  descriptionLabel : Option String
  primaryIdAttribute : Option String
  primaryNameAttribute : Option String
  attributes : List AttributeMetadata

/-- The cache-miss computation of `describeTable`: filter the readable
attributes (for `full = false`, to the scored important fields plus the
primary-id and primary-name attributes), describe them, and synthesize the
sample record. A cache hit instead returns a previously stored description
verbatim (`getTableDescription`). -/
def describeTableCompute (em : EntityMeta) (entitySetName : String)
    (sample : Except String (List SampleRec)) (full : Bool) (nowISO : String) :
    TableDescription :=
  let attributes := em.attributes
  let importantFields :=
    if !full then determineImportantFields entitySetName attributes sample else []
  let filteredAttributes :=
    if full then attributes.filter (fun attr => attr.isValidForRead)
    else attributes.filter (fun attr =>
      attr.isValidForRead
        && (importantFields.contains attr.logicalName
          || attr.isPrimaryId || attr.isPrimaryName))
  let attributeDescriptions :=
    filteredAttributes.map (fun attr => createAttributeDescription attr nowISO)
  let sampleRecord := attributeDescriptions.foldl
    (fun o d => jsObjSet o d.logicalName d.exampleValue) []
  { logicalName := em.logicalName
    displayName := jsOrStr em.displayLabel em.logicalName
    description := em.descriptionLabel
    primaryIdAttribute := em.primaryIdAttribute
    primaryNameAttribute := em.primaryNameAttribute
    attributes := attributeDescriptions
    sampleRecord := sampleRecord }

end MetadataService

/-- A required, creatable, readable string attribute named `n` (all fifteen
scored fields of the `describeTable` bound counterexample look like this). -/
def mkReqAttr (n : String) : MetadataService.AttributeMetadata :=
  { logicalName := n, displayLabel := none, descriptionLabel := none
    attributeTypeName := some "StringType", isPrimaryId := false
    isPrimaryName := false, isValidForRead := true
    isValidForCreate := some true, isValidForUpdate := some true
    requiredLevel := some "ApplicationRequired", attributeOf := none
    isLogical := none, maxLength := none, format := none
    optionSet := none, targets := none }

/-- A readable primary-id attribute that is neither creatable nor updatable,
so the scorer's `isReadOnlyComputed` filter excludes it from scoring while
the description filter still force-includes it. -/
def pidAttr : MetadataService.AttributeMetadata :=
  { logicalName := "recordid", displayLabel := none, descriptionLabel := none
    attributeTypeName := some "UniqueidentifierType", isPrimaryId := true
    isPrimaryName := false, isValidForRead := true
    isValidForCreate := some false, isValidForUpdate := some false
    requiredLevel := none, attributeOf := none
    isLogical := none, maxLength := none, format := none
    optionSet := none, targets := none }

/-- Entity metadata with the read-only primary id plus fifteen required
fields: the scorer keeps all fifteen, and the description filter adds the
primary id back as a sixteenth attribute. -/
def em16 : MetadataService.EntityMeta :=
  { logicalName := "widget", displayLabel := none, descriptionLabel := none
    primaryIdAttribute := some "recordid", primaryNameAttribute := none
    attributes := pidAttr ::
      (List.range 15).map (fun i => mkReqAttr ("fld" ++ toString (i + 1))) }

/-- One sampled record in which every field reads as null. -/
def sampleC1 : Except String (List MetadataService.SampleRec) :=
  .ok [fun _ => false]

/-! ## DataMutationService: payload normalization and resolution -/

namespace DataMutationService

/-- `isHexDigit` of the GUID pattern (case-insensitive hex). -/
def isHexDigit (c : Char) : Bool :=
  (Char.ofNat 48 ≤ c && c ≤ Char.ofNat 57)
    || (Char.ofNat 97 ≤ c && c ≤ Char.ofNat 102)
    || (Char.ofNat 65 ≤ c && c ≤ Char.ofNat 70)

/-- `GUID_REGEX.test` of `guidUtils.ts`: 8-4-4-4-12 hex digits separated by
dashes. -/
def isGuidStr (s : String) : Bool :=
  let l := s.toList
  l.length == 36
    && (List.range 36).all (fun i =>
      let c := l.getD i (Char.ofNat 32)
      if i == 8 || i == 13 || i == 18 || i == 23 then c == Char.ofNat 45
      else isHexDigit c)

/-- `isGuid(value)`: the regex test string-coerces its argument. -/
def isGuid (v : Jv) : Bool := isGuidStr v.toStr

/-- `escapeODataValue`: double every single-quote character (code 39). -/
def escapeODataValue (value : String) : String :=
  String.mk (value.toList.foldr
    (fun c acc =>
      if c == Char.ofNat 39 then Char.ofNat 39 :: Char.ofNat 39 :: acc else c :: acc)
    [])

/-- Whether a value is a JS string. -/
def isStrJv : Jv → Bool
  | .vStr _ => true
  | _ => false

/-- The string of a value known to be a string. -/
def strOf : Jv → String
  | .vStr s => s
  | _ => ""

/-- The collaborators a `DataMutationService` call reaches through
`metadataService` and `service`: `describe` is `describeTable(name, full)`,
`entitySet` is `getEntitySetName`, `baseCurrencyId` is
`getOrganizationBaseCurrencyId`, and `byName` is
`retrieveRecordByAlternateKey(entitySetName, primaryNameAttribute,
escapedValue)` returning the parsed `value` array of the response (`none`
models a null/valueless body). Failures are `.error`. -/
structure MutEnv where
  describe : String → Bool → Except String TableDescription
  entitySet : String → Except String String
  baseCurrencyId : Except String String
  byName : String → String → String → Except String (Option (List JsObj))

/-- Case (d) of `resolveLookup`: try a by-primary-name lookup against each
declared target in order; a failing remote lookup is swallowed (`try next
target`), while `describeTable`/`getEntitySetName` failures propagate. The
second component is the trace of remote consultations made. -/
def tryTargets (env : MutEnv) (value : String) :
    List String → Except String (Option String) × List String
  | [] => (.ok none, [])
  | target :: rest =>
    match env.describe target false with
    | .error e => (.error e, ["describe " ++ target])
    | .ok tableDescription =>
      if truthyStr tableDescription.primaryNameAttribute then
        match env.entitySet target with
        | .error e => (.error e, ["describe " ++ target, "entitySet " ++ target])
        | .ok entitySetName =>
          let pna := tableDescription.primaryNameAttribute.getD ""
          let logs := ["describe " ++ target, "entitySet " ++ target,
            "byName " ++ entitySetName]
          match env.byName entitySetName pna (escapeODataValue value) with
          | .error _ =>
            let r := tryTargets env value rest
            (r.1, logs ++ r.2)
          | .ok none =>
            let r := tryTargets env value rest
            (r.1, logs ++ r.2)
          | .ok (some records) =>
            if records.length == 1 then
              let recordId := jsToStrOpt (jsObjGet (records.headD []) (target ++ "id"))
              (.ok (some ("/" ++ entitySetName ++ "(" ++ recordId ++ ")")), logs)
            else
              let r := tryTargets env value rest
              (r.1, logs ++ r.2)
      else
        let r := tryTargets env value rest
        (r.1, ["describe " ++ target] ++ r.2)

/-- `resolveLookup`: (b) a string containing both parentheses passes through
unchanged; (a) a bare GUID resolves against a unique target or fails as
polymorphic; (c) `table=guid` resolves the table name; (d) otherwise a
by-primary-name search over the targets; else a terminal unresolved error.
The second component is the trace of remote consultations made. -/
def resolveLookup (env : MutEnv) (attr : AttributeDescription) (value : Jv) :
    Except String String × List String :=
  if isStrJv value && strHas (strOf value) "(" && strHas (strOf value) ")" then
    (.ok (strOf value), [])
  else if isGuid value then
    match attr.targets with
    | some [targetEntity] =>
      (match env.entitySet targetEntity with
       | .error e => (.error e, ["entitySet " ++ targetEntity])
       | .ok entitySetName =>
         (.ok ("/" ++ entitySetName ++ "(" ++ value.toStr ++ ")"),
          ["entitySet " ++ targetEntity]))
    | _ =>
      (.error ("Lookup for attribute " ++ attr.logicalName
        ++ " is polymorphic. Please provide the entity set name."), [])
  else if isStrJv value && strHas (strOf value) "=" then
    let parts := splitChar (Char.ofNat 61) (strOf value)
    (match env.entitySet (parts.getD 0 "") with
     | .error e => (.error e, ["entitySet " ++ parts.getD 0 ""])
     | .ok entitySetName =>
       (.ok ("/" ++ entitySetName ++ "(" ++ parts.getD 1 "" ++ ")"),
        ["entitySet " ++ parts.getD 0 ""]))
  else if isStrJv value && attr.targets.isSome then
    let r := tryTargets env (strOf value) (attr.targets.getD [])
    match r.1 with
    | .error e => (.error e, r.2)
    | .ok (some resolved) => (.ok resolved, r.2)
    | .ok none =>
      (.error ("Could not resolve lookup value for attribute "
        ++ attr.logicalName), r.2)
  else
    (.error ("Could not resolve lookup value for attribute "
      ++ attr.logicalName), [])

/-- `resolveOptionSet`: a number passes through unchanged; a string must
match exactly one option label. -/
def resolveOptionSet (attr : AttributeDescription) (value : Jv) :
    Except String Q :=
  match value with
  | .vNum q => .ok q
  | _ =>
    if isStrJv value && attr.optionSet.isSome then
      let matchingOptions := (attr.optionSet.getD []).filter
        (fun option => option.label == strOf value)
      if matchingOptions.length == 1 then
        .ok ((matchingOptions.headD ⟨0, ""⟩).value : Q)
      else if matchingOptions.length > 1 then
        .error ("Option set value " ++ strOf value ++ " for attribute "
          ++ attr.logicalName ++ " is not unique.")
      else
        .error ("Could not resolve option set value for attribute "
          ++ attr.logicalName)
    else
      .error ("Could not resolve option set value for attribute "
        ++ attr.logicalName)

/-- Fields skipped by required-field validation (system-managed). -/
def systemManagedFields : List String :=
  ["statecode", "statuscode", "ownerid", "owneridtype", "transactioncurrencyid",
   "createdby", "createdon", "modifiedby", "modifiedon", "versionnumber"]

/-- `validateRequiredAttributes` over the full table description: collect
every required, non-read-only, non-primary-id, non-system-managed attribute
that the data object lacks (a `Lookup`/`Customer`/`Owner`-typed one also
counts as provided through its `@odata.bind` sibling key), and fail once
with the aggregated list. The quote characters around the table name of the
original message are omitted. -/
def validateRequiredAttributes (env : MutEnv) (tableName : String) (data : JsObj) :
    Except String Unit :=
  match env.describe tableName true with
  | .error e => .error e
  | .ok tableDescription =>
    let missingRequiredFields := tableDescription.attributes.foldl
      (fun acc attr =>
        if attr.isRequired && !attr.isReadOnly
            && !(some attr.logicalName == tableDescription.primaryIdAttribute) then
          if systemManagedFields.contains attr.logicalName then acc
          else
            let isProvided := jsObjHas data attr.logicalName
            let isLookupProvided :=
              (attr.type == "Lookup" || attr.type == "Customer"
                || attr.type == "Owner")
              && jsObjHas data (attr.logicalName ++ "@odata.bind")
            if !isProvided && !isLookupProvided then
              acc ++ [attr.logicalName ++ " (" ++ attr.displayName ++ ")"]
            else acc
        else acc)
      []
    if missingRequiredFields.length > 0 then
      let fieldList := String.intercalate "\n"
        (missingRequiredFields.map (fun field => "  - " ++ field))
      .error ("Cannot create record in table " ++ tableName
        ++ ": Missing required attributes:\n" ++ fieldList
        ++ "\n\nUse describe_table to see all required fields and their data types.")
    else .ok ()

/-- Owner and regarding-object sibling-pair merges of
`normalizeSpecialPatterns` (run before the generic suffix rule). -/
def mergeWellKnownPairs (data : JsObj) : JsObj :=
  let normalized := data
  let normalized :=
    if jsTruthy (jsObjGet normalized "ownerid")
        && jsTruthy (jsObjGet normalized "owneridtype") then
      let ownerGuid := jsToStrOpt (jsObjGet normalized "ownerid")
      let ownerType := jsToStrOpt (jsObjGet normalized "owneridtype")
      jsObjDelete
        (jsObjSet normalized "ownerid" (.vStr (ownerType ++ "=" ++ ownerGuid)))
        "owneridtype"
    else normalized
  if jsTruthy (jsObjGet normalized "regardingobjectid")
      && jsTruthy (jsObjGet normalized "regardingobjecttypecode") then
    let regardingGuid := jsToStrOpt (jsObjGet normalized "regardingobjectid")
    let regardingType := jsToStrOpt (jsObjGet normalized "regardingobjecttypecode")
    jsObjDelete
      (jsObjSet normalized "regardingobjectid"
        (.vStr (regardingType ++ "=" ++ regardingGuid)))
      "regardingobjecttypecode"
  else normalized

/-- The three `*id`/`*type(code)` suffix patterns of the generic merge rule. -/
def typePatterns : List (String × String) :=
  [("id", "type"), ("id", "typecode"), ("objectid", "objecttypecode")]

/-- One pattern check of the generic merge loop: when `key` ends with the
type suffix and the derived id field holds a truthy value (and is not an
owner/regarding field, which the well-known merges already handled), merge
into the `type=id` form and delete the type key. -/
def applyPattern (key : String) (p : String × String) (normalized : JsObj) : JsObj :=
  if strEnds key p.2 then
    let baseFieldName := strDropEnd key p.2.toList.length
    let idFieldName := baseFieldName ++ p.1
    if jsTruthy (jsObjGet normalized idFieldName)
        && !(strHas idFieldName "owner") && !(strHas idFieldName "regarding") then
      let idValue := jsToStrOpt (jsObjGet normalized idFieldName)
      let typeValue := jsToStrOpt (jsObjGet normalized key)
      jsObjDelete
        (jsObjSet normalized idFieldName (.vStr (typeValue ++ "=" ++ idValue)))
        key
    else normalized
  else normalized

/-- The inner pattern loop for one key. -/
def applyPatterns (key : String) (normalized : JsObj) : JsObj :=
  typePatterns.foldl (fun n p => applyPattern key p n) normalized

/-- The outer `for key in normalized` loop, over the keys present when the
loop starts (the body only ever deletes the key it is visiting, so iterating
the initial key list with live lookups matches the JS `for..in`). -/
def genericLoop : List String → JsObj → JsObj
  | [], n => n
  | k :: ks, n => genericLoop ks (applyPatterns k n)

/-- `normalizeSpecialPatterns`. -/
def normalizeSpecialPatterns (data : JsObj) : JsObj :=
  let normalized := mergeWellKnownPairs data
  genericLoop (normalized.map Prod.fst) normalized

/-- The per-key resolution loop of `processPayload`: type-directed dispatch
on the described attribute (`LookupType`-family to the `@odata.bind` wire
form, choice types through the option-set resolver, everything else — and
unknown keys — copied through). -/
def payloadLoop (env : MutEnv) (tableDescription : TableDescription) :
    List (String × Jv) → JsObj → Except String JsObj
  | [], acc => .ok acc
  | (key, value) :: rest, acc =>
    match tableDescription.attributes.find? (fun a => a.logicalName == key) with
    | some attr =>
      if attr.type == "LookupType" || attr.type == "CustomerType"
          || attr.type == "OwnerType" then
        match (resolveLookup env attr value).1 with
        | .error e => .error e
        | .ok resolved =>
          payloadLoop env tableDescription rest
            (jsObjSet acc (key ++ "@odata.bind") (.vStr resolved))
      else if attr.type == "PicklistType" || attr.type == "StateType"
          || attr.type == "StatusType" then
        match resolveOptionSet attr value with
        | .error e => .error e
        | .ok n => payloadLoop env tableDescription rest (jsObjSet acc key (.vNum n))
      else payloadLoop env tableDescription rest (jsObjSet acc key value)
    | none => payloadLoop env tableDescription rest (jsObjSet acc key value)

/-- `processPayload`: describe the table (full), normalize sibling-pair
patterns, resolve each attribute, and auto-inject the organization's base
currency reference when the table has a `transactioncurrencyid` attribute the
caller did not supply. The `recordId` parameter (present on the update path)
is never consulted: the currency injection is unconditional on it. -/
def processPayload (env : MutEnv) (tableName : String) (data : JsObj)
    (recordId : Option String) : Except String JsObj :=
  match env.describe tableName true with
  | .error e => .error e
  | .ok tableDescription =>
    let normalizedData := normalizeSpecialPatterns data
    match payloadLoop env tableDescription normalizedData [] with
    | .error e => .error e
    | .ok processedData =>
      if tableDescription.attributes.any
          (fun a => a.logicalName == "transactioncurrencyid")
          && !(jsObjHas data "transactioncurrencyid") then
        match env.baseCurrencyId with
        | .error e => .error e
        | .ok currencyId =>
          match env.entitySet "transactioncurrency" with
          | .error e => .error e
          | .ok entitySetName =>
            .ok (jsObjSet processedData "transactioncurrencyid@odata.bind"
              (.vStr ("/" ++ entitySetName ++ "(" ++ currencyId ++ ")")))
      else .ok processedData

/-- `updateRecord` up to the PATCH call: the entity set it posts to and the
payload it sends (update performs no required-field validation). -/
def updateRecordPayload (env : MutEnv) (tableName recordId : String) (data : JsObj) :
    Except String (String × JsObj) :=
  match env.entitySet tableName with
  | .error e => .error e
  | .ok entitySetName =>
    match processPayload env tableName data (some recordId) with
    | .error e => .error e
    | .ok processedData => .ok (entitySetName, processedData)

end DataMutationService

/-- Error projection of a validation/processing outcome. -/
def excErr {α : Type} : Except String α → Option String
  | .ok _ => none
  | .error e => some e

/-- Metadata of a required, creatable lookup attribute, as the remote
reports it (`AttributeTypeName.Value = "LookupType"`). -/
def lookupReqMeta : MetadataService.AttributeMetadata :=
  { logicalName := "customerid", displayLabel := some "Customer"
    descriptionLabel := none, attributeTypeName := some "LookupType"
    isPrimaryId := false, isPrimaryName := false, isValidForRead := true
    isValidForCreate := some true, isValidForUpdate := some true
    requiredLevel := some "ApplicationRequired", attributeOf := none
    isLogical := none, maxLength := none, format := none
    optionSet := none, targets := none }

/-- The full-variant table description the validator sees for that schema:
its one attribute is the described lookup (type `"LookupType"`). -/
def tdC5 : TableDescription :=
  { logicalName := "account", displayName := "Account", description := none
    primaryIdAttribute := some "accountid", primaryNameAttribute := none
    attributes := [MetadataService.createAttributeDescription lookupReqMeta "T"]
    sampleRecord := [] }

/-- The same description but with the type string `"Lookup"` that the
validator's sibling-key check actually tests for (no description built by
this repository's `MetadataService` carries it). -/
def tdC5Legacy : TableDescription :=
  { tdC5 with attributes :=
      [{ MetadataService.createAttributeDescription lookupReqMeta "T" with
          type := "Lookup" }] }

/-- A mutation environment serving a fixed table description and failing
every other remote interaction. -/
def mutEnvOf (td : TableDescription) : DataMutationService.MutEnv :=
  { describe := fun _ _ => .ok td
    entitySet := fun _ => .error "unused"
    baseCurrencyId := .error "unused"
    byName := fun _ _ _ => .error "unused" }

/-- A create payload that supplies the required lookup only through its
wire-form sibling key. -/
def dataC5 : JsObj :=
  [("customerid@odata.bind", .vStr "/contacts(11111111-1111-1111-1111-111111111111)")]

/-- A table with a currency attribute, for the update auto-injection claim. -/
def tdC6 : TableDescription :=
  { logicalName := "invoice", displayName := "Invoice", description := none
    primaryIdAttribute := some "invoiceid", primaryNameAttribute := some "name"
    attributes :=
      [{ logicalName := "name", displayName := "Name", description := none
         type := "StringType", isPrimaryId := false, isPrimaryName := true
         isRequired := true, isReadOnly := false, maxLength := none
         format := none, exampleValue := .vStr "Sample Name"
         targets := none, optionSet := none },
       { logicalName := "transactioncurrencyid", displayName := "Currency"
         description := none, type := "LookupType", isPrimaryId := false
         isPrimaryName := false, isRequired := false, isReadOnly := false
         maxLength := none, format := none, exampleValue := .vNull
         targets := none, optionSet := none }]
    sampleRecord := [] }

/-- The environment of the currency-injection run. -/
def envC6 : DataMutationService.MutEnv :=
  { describe := fun _ _ => .ok tdC6
    entitySet := fun n =>
      if n == "transactioncurrency" then .ok "transactioncurrencies"
      else if n == "invoice" then .ok "invoices"
      else .error "not found"
    baseCurrencyId := .ok "22222222-2222-2222-2222-222222222222"
    byName := fun _ _ _ => .error "unused" }

/-- An update payload that does not mention the currency field. -/
def dataC6 : JsObj := [("name", .vStr "INV-0042")]

/-- A polymorphic lookup attribute description with declared targets, for the
parenthesized-string passthrough claim. -/
def attrC10 : AttributeDescription :=
  { logicalName := "customerid", displayName := "Customer", description := none
    type := "CustomerType", isPrimaryId := false, isPrimaryName := false
    isRequired := false, isReadOnly := false, maxLength := none, format := none
    exampleValue := .vNull, targets := some ["account", "contact"]
    optionSet := none }

end DV

/-! ## Theorems -/

namespace DV

theorem storeFind_storeSet {V : Type} (st : Store V) (k : String) (it : CachedItem V) :
    storeFind (storeSet st k it) k = some it := by
  induction st with
  | nil => simp [storeSet, storeFind]
  | cons e es ih =>
    by_cases h : e.1 = k
    · simp [storeSet, storeFind, h]
    · simp [storeSet, storeFind, h, ih]

theorem storeFind_storeDelete {V : Type} (st : Store V) (k : String) :
    storeFind (storeDelete st k) k = none := by
  induction st with
  | nil => simp [storeDelete, storeFind]
  | cons e es ih =>
    by_cases h : e.1 = k
    · simpa [storeDelete, storeFind, h] using ih
    · simpa [storeDelete, storeFind, h] using ih

end DV

/-- C3: for every cache class and key, a value written at time T is returned
unchanged by a read at any T' with T' - T < TTL; a read at T' with
T' - T ≥ TTL misses, and the expired entry is evicted from the store as a
side effect of that read. -/
theorem c3_cache_ttl {V : Type} (st : DV.Store V) (k : String) (v : V)
    (T T' ttl : Int) :
    (T' - T < ttl → (DV.cacheGet (DV.cacheSet st k v T) k ttl T').1 = some v) ∧
    (ttl ≤ T' - T →
      (DV.cacheGet (DV.cacheSet st k v T) k ttl T').1 = none ∧
      DV.storeFind (DV.cacheGet (DV.cacheSet st k v T) k ttl T').2 k = none) := by
  constructor
  · intro h
    have hexp : DV.isExpired T' T ttl = false := by
      simp [DV.isExpired]
      omega
    simp [DV.cacheGet, DV.cacheSet, DV.storeFind_storeSet, hexp]
  · intro h
    have hexp : DV.isExpired T' T ttl = true := by
      simp [DV.isExpired]
      omega
    constructor
    · simp [DV.cacheGet, DV.cacheSet, DV.storeFind_storeSet, hexp]
    · simp [DV.cacheGet, DV.cacheSet, DV.storeFind_storeSet, hexp,
        DV.storeFind_storeDelete]

/-- Witness for `c3_cache_ttl` at a concrete store, key and clock. -/
theorem c3_cache_ttl_witness :
    (DV.cacheGet (DV.cacheSet ([] : DV.Store Nat) "u_tables" 7 0) "u_tables" 2 1).1
      = some 7 ∧
    (DV.cacheGet (DV.cacheSet ([] : DV.Store Nat) "u_tables" 7 0) "u_tables" 2 2).1
      = none :=
  ⟨(c3_cache_ttl ([] : DV.Store Nat) "u_tables" 7 0 1 2).1 (by decide),
   ((c3_cache_ttl ([] : DV.Store Nat) "u_tables" 7 0 2 2).2 (by decide)).1⟩

/-- C9: the source's own doc comment promises that `clearExpired` clears all
expired entries from all caches, but the sweep iterates over only five of the
six cache classes. At time 24h, an entry of age exactly one TTL is expired and
is removed from the table-list class, yet the equally old
readable-entity-names entry survives the sweep — contradicting the claim that
after `sweepExpired` every over-age entry is absent from every class. -/
theorem c9_sweep_misses_readable_entity_names :
    DV.isExpired 86400000 0 DV.MetadataCacheService.readableEntityNamesTTL = true ∧
    (DV.MetadataCacheService.clearExpired DV.sweepState 86400000).tableMetadataCache = [] ∧
    DV.storeFind
      (DV.MetadataCacheService.clearExpired DV.sweepState 86400000).readableEntityNamesCache
      "u_uid_readableEntityNames" = some ⟨["account"], 0⟩ := by
  refine ⟨by decide, ?_, ?_⟩ <;>
    simp [DV.MetadataCacheService.clearExpired, DV.sweepState,
      DV.MetadataCacheService.emptyCache, DV.storeSweep, DV.isExpired,
      DV.MetadataCacheService.tableMetadataTTL, DV.storeFind]

namespace DV

open DataverseWebApiService in
theorem sendStringAux_all429 (tok : String) (responses : Nat → Resp)
    (h : ∀ i, (responses i).status = 429) :
    ∀ remaining attempt,
      (sendStringAux tok responses attempt remaining).1 = .error .rateLimitExceeded ∧
      (sendStringAux tok responses attempt remaining).2.length = remaining + 1 := by
  intro remaining
  induction remaining with
  | zero => intro attempt; simp [sendStringAux, h attempt]
  | succ n ih =>
    intro attempt
    simp [sendStringAux, h attempt, (ih (attempt + 1)).1, (ih (attempt + 1)).2]

open DataverseWebApiService in
theorem sendReqAux_fresh_tokens (provider : Nat → String) (responses : Nat → Resp) :
    ∀ remaining attempt a, a ∈ (sendReqAux provider responses attempt remaining).2 →
      a.token = provider a.index := by
  intro remaining
  induction remaining with
  | zero =>
    intro attempt a ha
    by_cases h429 : (responses attempt).status = 429
    · simp [sendReqAux, h429] at ha; simp [ha]
    · by_cases hok : respOk (responses attempt) = true <;>
        · simp [sendReqAux, h429, hok] at ha; simp [ha]
  | succ n ih =>
    intro attempt a ha
    by_cases h429 : (responses attempt).status = 429
    · simp [sendReqAux, h429] at ha
      rcases ha with ha | ha
      · simp [ha]
      · exact ih (attempt + 1) a ha
    · by_cases hok : respOk (responses attempt) = true <;>
        · simp [sendReqAux, h429, hok] at ha; simp [ha]

open DataverseWebApiService in
theorem sendStringAux_const_token (tok : String) (responses : Nat → Resp) :
    ∀ remaining attempt a, a ∈ (sendStringAux tok responses attempt remaining).2 →
      a.token = tok := by
  intro remaining
  induction remaining with
  | zero =>
    intro attempt a ha
    by_cases h429 : (responses attempt).status = 429
    · simp [sendStringAux, h429] at ha; simp [ha]
    · by_cases hok : respOk (responses attempt) = true <;>
        · simp [sendStringAux, h429, hok] at ha; simp [ha]
  | succ n ih =>
    intro attempt a ha
    by_cases h429 : (responses attempt).status = 429
    · simp [sendStringAux, h429] at ha
      rcases ha with ha | ha
      · simp [ha]
      · exact ih (attempt + 1) a ha
    · by_cases hok : respOk (responses attempt) = true <;>
        · simp [sendStringAux, h429, hok] at ha; simp [ha]

end DV

/-- C2: with a remote that always answers 429, `sendRequestString` makes
exactly `maxRetries + 1` attempts and then fails with the rate-limit error;
with a remote that answers 429 once and then 200 with body `b`, the call
succeeds and returns `b`. -/
theorem c2_retry_bound (maxRetries : Nat) (tok : String)
    (responsesA responsesB : Nat → DV.DataverseWebApiService.Resp) (b : String)
    (hA : ∀ i, (responsesA i).status = 429)
    (hB0 : (responsesB 0).status = 429)
    (hB1 : (responsesB 1).status = 200)
    (hBbody : (responsesB 1).body = b)
    (hmr : 1 ≤ maxRetries) :
    ((DV.DataverseWebApiService.sendRequestString maxRetries tok responsesA).1
        = .error .rateLimitExceeded ∧
      (DV.DataverseWebApiService.sendRequestString maxRetries tok responsesA).2.length
        = maxRetries + 1) ∧
    (DV.DataverseWebApiService.sendRequestString maxRetries tok responsesB).1 = .ok b := by
  refine ⟨DV.sendStringAux_all429 tok responsesA hA maxRetries 0, ?_⟩
  obtain ⟨n, rfl⟩ : ∃ n, maxRetries = n + 1 :=
    ⟨maxRetries - 1, by omega⟩
  rw [DV.DataverseWebApiService.sendRequestString]
  rw [DV.DataverseWebApiService.sendStringAux.eq_def]
  simp only [hB0, if_pos rfl]
  rw [DV.DataverseWebApiService.sendStringAux.eq_def]
  simp [hB1, hBbody, DV.DataverseWebApiService.respOk]

/-- Witness for `c2_retry_bound` with the default retry budget of 3. -/
theorem c2_retry_bound_witness :
    ((DV.DataverseWebApiService.sendRequestString 3 "t" DV.always429).1
        = .error .rateLimitExceeded ∧
      (DV.DataverseWebApiService.sendRequestString 3 "t" DV.always429).2.length = 4) ∧
    (DV.DataverseWebApiService.sendRequestString 3 "t" DV.once429then200).1 = .ok "hello" :=
  c2_retry_bound 3 "t" DV.always429 DV.once429then200 "hello"
    (fun _ => rfl) rfl rfl rfl (by decide)

/-- C7 counterexample: a `sendRequestString` call that retries once makes two
attempts but reuses the caller-supplied credential (`tok0`, the provider's
first acquisition) on both; the claim that each attempt uses a credential
freshly acquired for that attempt (`tok<i>` on attempt i) is false for this
run. -/
theorem c7_counterexample_token_reuse :
    ((DV.DataverseWebApiService.sendRequestString 1 (DV.tokenProvider 0)
        DV.once429then200).2.map DV.DataverseWebApiService.Attempt.token
      = ["tok0", "tok0"]) ∧
    ¬ (∀ a ∈ (DV.DataverseWebApiService.sendRequestString 1 (DV.tokenProvider 0)
        DV.once429then200).2, a.token = DV.tokenProvider a.index) := by
  constructor
  · decide
  · decide

/-- C7 (amended): `sendRequest` acquires a bearer credential inside the retry
loop, so every attempt (retries included) uses the credential acquired for
that attempt; `sendRequestString` instead receives one caller-supplied
credential and attaches that same credential to every attempt, retries
included. -/
theorem c7_token_per_attempt (provider : Nat → String) (tok : String)
    (responses : Nat → DV.DataverseWebApiService.Resp) (maxRetries : Nat) :
    (∀ a ∈ (DV.DataverseWebApiService.sendRequest maxRetries provider responses).2,
      a.token = provider a.index) ∧
    (∀ a ∈ (DV.DataverseWebApiService.sendRequestString maxRetries tok responses).2,
      a.token = tok) :=
  ⟨fun a ha => DV.sendReqAux_fresh_tokens provider responses maxRetries 0 a ha,
   fun a ha => DV.sendStringAux_const_token tok responses maxRetries 0 a ha⟩

/-- Witness for `c7_token_per_attempt` on a concrete two-attempt run. -/
theorem c7_token_per_attempt_witness :
    (∀ a ∈ (DV.DataverseWebApiService.sendRequest 1 DV.tokenProvider
        DV.once429then200).2, a.token = DV.tokenProvider a.index) ∧
    (∀ a ∈ (DV.DataverseWebApiService.sendRequestString 1 "t"
        DV.once429then200).2, a.token = "t") :=
  c7_token_per_attempt DV.tokenProvider "t" DV.once429then200 1

/-- C4: after `setEntitySetNameBidirectional(u, "contact", "contacts")`,
resolving the collection name `"contacts"` does not yield the logical name
`"contact"`: the reverse cache stores the entity set name as its own value,
and `resolveLogicalName` returns that value as if it were the logical name.
The other two legs of the claimed invariant do hold on the same state
(`getEntitySetName("contact") = "contacts"` and
`resolveLogicalName("contact") = "contact"`), so the failing input pins the
bug to the reverse direction. -/
theorem c4_resolve_collection_misses_logical :
    DV.resName (DV.MetadataService.resolveLogicalName DV.deadEnv DV.c4State "contacts")
      = some "contacts" ∧
    DV.resName (DV.MetadataService.getEntitySetName DV.deadEnv DV.c4State "contact")
      = some "contacts" ∧
    DV.resName (DV.MetadataService.resolveLogicalName DV.deadEnv DV.c4State "contact")
      = some "contact" ∧
    "contacts" ≠ "contact" := by
  refine ⟨?_, ?_, ?_, by decide⟩ <;> decide

/-- C8 counterexample: on a fresh cache, with a service handle that has no
user id, resolving an unknown identifier does not fall back to the raw input —
the embedded table-list refresh throws and the error propagates out of
`resolveLogicalName`, so the operation is not exception-free. -/
theorem c8_counterexample_refresh_error_propagates :
    DV.resErr (DV.MetadataService.resolveLogicalName DV.deadEnv
        DV.MetadataCacheService.emptyCache "widgets")
      = some "User ID not available. Service may not be initialized." := by
  decide

namespace DV

theorem mem_insertBy {α : Type} (le : α → α → Bool) (x a : α) (l : List α) :
    a ∈ insertBy le x l ↔ a = x ∨ a ∈ l := by
  induction l with
  | nil => simp [insertBy]
  | cons y ys ih =>
    by_cases h : le x y = true
    · simp [insertBy, h]
    · simp [insertBy, h, ih]
      tauto

theorem mem_sortBy {α : Type} (le : α → α → Bool) (a : α) (l : List α) :
    a ∈ sortBy le l ↔ a ∈ l := by
  induction l with
  | nil => simp [sortBy]
  | cons x xs ih => simp [sortBy, mem_insertBy, ih]

theorem cacheGet_hit_state {V : Type} (st : Store V) (k : String) (ttl now : Int)
    (v : V) (h : (cacheGet st k ttl now).1 = some v) :
    (cacheGet st k ttl now).2 = st := by
  unfold cacheGet at *
  rcases hf : storeFind st k with _ | c <;> simp [hf] at h ⊢
  by_cases he : isExpired now c.timestamp ttl = true <;> simp [he] at h ⊢

theorem cacheGet_miss_again {V : Type} (st : Store V) (k : String) (ttl now : Int)
    (h : (cacheGet st k ttl now).1 = none) :
    cacheGet (cacheGet st k ttl now).2 k ttl now = (none, (cacheGet st k ttl now).2) := by
  unfold cacheGet at *
  rcases hf : storeFind st k with _ | c
  · simp [hf]
  · by_cases he : isExpired now c.timestamp ttl = true
    · simp [hf, he, storeFind_storeDelete]
    · simp [hf, he] at h

theorem cacheGet_cacheSet_fresh {V : Type} (st : Store V) (k : String) (ttl now : Int)
    (v : V) (h : 0 < ttl) :
    cacheGet (cacheSet st k v now) k ttl now = (some v, cacheSet st k v now) := by
  have hexp : isExpired now now ttl = false := by
    simp [isExpired]; omega
  simp [cacheGet, cacheSet, storeFind_storeSet, hexp]

namespace MetadataService

open MetadataCacheService

theorem getTableMetadata_hit_state (st : CacheState) (now : Int) (url : String)
    (ts : List TableMetadata) (h : (getTableMetadata st now url).1 = some ts) :
    (getTableMetadata st now url).2 = st := by
  unfold getTableMetadata at *
  have := cacheGet_hit_state st.tableMetadataCache (url ++ "_tables") tableMetadataTTL now ts h
  simp [this]

theorem getTableMetadata_miss_again (st : CacheState) (now : Int) (url : String)
    (h : (getTableMetadata st now url).1 = none) :
    getTableMetadata (getTableMetadata st now url).2 now url
      = (none, (getTableMetadata st now url).2) := by
  unfold getTableMetadata at *
  have hm := cacheGet_miss_again st.tableMetadataCache (url ++ "_tables") tableMetadataTTL now h
  have h1 := congrArg Prod.fst hm
  have h2 := congrArg Prod.snd hm
  simp at h1 h2 ⊢
  exact ⟨h1, h2⟩

theorem getTableMetadata_set (st : CacheState) (now : Int) (url : String)
    (ts : List TableMetadata) :
    getTableMetadata (setTableMetadata st now url ts) now url
      = (some ts, setTableMetadata st now url ts) := by
  have h : (0 : Int) < tableMetadataTTL := by decide
  have := cacheGet_cacheSet_fresh st.tableMetadataCache (url ++ "_tables") tableMetadataTTL now ts h
  simp [getTableMetadata, setTableMetadata, this]

theorem getReadableEntityNames_tableCache (env : MetaEnv) (st : CacheState)
    (names : List String) (st' : CacheState)
    (h : getReadableEntityNames env st = .ok (names, st')) :
    st'.tableMetadataCache = st.tableMetadataCache := by
  unfold getReadableEntityNames at h
  rcases hu : env.userId with _ | uid <;> simp [hu] at h
  rcases hc : (MetadataCacheService.getReadableEntityNames st env.now env.dataverseUrl uid).1
    with _ | v
  · rcases hp : env.privileges with e | ps <;> simp [hc, hp] at h
    rw [← h.2]
    simp [setReadableEntityNames, MetadataCacheService.getReadableEntityNames]
  · simp [hc] at h
    rw [← h.2]
    simp [MetadataCacheService.getReadableEntityNames]

theorem foldl_entityStep_mem (env : MetaEnv) (ds : List EntityDef) :
    ∀ (acc : List TableMetadata × CacheState) (t : TableMetadata),
      t ∈ (ds.foldl (entityStep env) acc).1 →
      t ∈ acc.1 ∨ ∃ d ∈ ds, t = tableOfEntityDef d := by
  induction ds with
  | nil => intro acc t h; exact Or.inl h
  | cons d ds ih =>
    intro acc t h
    rcases ih (entityStep env acc d) t h with h1 | ⟨d', hd', ht⟩
    · simp [entityStep] at h1
      rcases h1 with h1 | h1
      · exact Or.inl h1
      · exact Or.inr ⟨d, by simp, h1⟩
    · exact Or.inr ⟨d', by simp [hd'], ht⟩

theorem foldl_entityStep_tableCache (env : MetaEnv) (ds : List EntityDef) :
    ∀ (acc : List TableMetadata × CacheState),
      (ds.foldl (entityStep env) acc).2.tableMetadataCache = acc.2.tableMetadataCache := by
  induction ds with
  | nil => intro acc; rfl
  | cons d ds ih =>
    intro acc
    rw [List.foldl_cons, ih]
    unfold entityStep
    by_cases h : ((tableOfEntityDef d).logicalName != ""
        && truthyStr (tableOfEntityDef d).collectionName) = true <;>
      simp [h, setEntitySetNameBidirectional, setEntitySetName, setReverseEntitySetName]

theorem foldlM_listTablesStep_ok (env : MetaEnv)
    (he : ∀ b, ∃ ds, env.entityDefs b = .ok ds) (bs : List (List String)) :
    ∀ (acc : List TableMetadata × CacheState),
      ∃ r, List.foldlM (listTablesStep env) acc bs = .ok r ∧
        (∀ t ∈ r.1, t ∈ acc.1 ∨ ∃ b ds d, env.entityDefs b = .ok ds ∧ d ∈ ds ∧
          t = tableOfEntityDef d) ∧
        r.2.tableMetadataCache = acc.2.tableMetadataCache := by
  induction bs with
  | nil => intro acc; exact ⟨acc, rfl, fun t ht => Or.inl ht, rfl⟩
  | cons b bs ih =>
    intro acc
    obtain ⟨ds, hds⟩ := he b
    obtain ⟨r, hr, hmem, hcache⟩ := ih (ds.foldl (entityStep env) acc)
    refine ⟨r, ?_, ?_, ?_⟩
    · simpa [List.foldlM, listTablesStep, hds, Except.bind] using hr
    · intro t ht
      rcases hmem t ht with h1 | h1
      · rcases foldl_entityStep_mem env ds acc t h1 with h2 | ⟨d, hd, htd⟩
        · exact Or.inl h2
        · exact Or.inr ⟨b, ds, d, hds, hd, htd⟩
      · exact Or.inr h1
    · rw [hcache, foldl_entityStep_tableCache]

/-- Outcome of `listTables` when the remote collaborators succeed: the call
returns a table list that is afterwards served from the cache, and every
returned table either was already the cached list or was built from a fetched
entity definition. -/
theorem listTables_spec (env : MetaEnv) (st : CacheState) (uid : String)
    (ps : List String) (hu : env.userId = some uid) (hp : env.privileges = .ok ps)
    (he : ∀ b, ∃ ds, env.entityDefs b = .ok ds) :
    ∃ ts st', listTables env st = .ok (ts, st') ∧
      (getTableMetadata st' env.now env.dataverseUrl).1 = some ts ∧
      ((getTableMetadata st env.now env.dataverseUrl).1 = some ts ∨
        ∀ t ∈ ts, ∃ b ds d, env.entityDefs b = .ok ds ∧ d ∈ ds ∧
          t = tableOfEntityDef d) := by
  rcases hc : (getTableMetadata st env.now env.dataverseUrl).1 with _ | cached
  · -- cache miss: full fetch; the readable-entity-names step succeeds
    rcases hnames : getReadableEntityNames env (getTableMetadata st env.now env.dataverseUrl).2
      with e | p
    · exfalso
      unfold getReadableEntityNames at hnames
      rcases hcr : (MetadataCacheService.getReadableEntityNames
          (getTableMetadata st env.now env.dataverseUrl).2 env.now env.dataverseUrl uid).1
        with _ | v
      · simp [hu, hcr, hp] at hnames
      · simp [hu, hcr] at hnames
    obtain ⟨names, st1⟩ := p
    obtain ⟨r, hr, hmem, -⟩ := foldlM_listTablesStep_ok env he (batches100 names) ([], st1)
    refine ⟨sortBy (fun a b => decide (a.displayName ≤ b.displayName)) r.1,
      setTableMetadata r.2 env.now env.dataverseUrl
        (sortBy (fun a b => decide (a.displayName ≤ b.displayName)) r.1), ?_, ?_, ?_⟩
    · unfold listTables
      simp only [hc, hnames]
      show ((fun a =>
            (sortBy (fun a b => decide (a.displayName ≤ b.displayName)) a.1,
              setTableMetadata a.2 env.now env.dataverseUrl
                (sortBy (fun a b => decide (a.displayName ≤ b.displayName)) a.1))) <$>
          List.foldlM (listTablesStep env) ([], st1) (batches100 names))
        = Except.ok (sortBy (fun a b => decide (a.displayName ≤ b.displayName)) r.1,
            setTableMetadata r.2 env.now env.dataverseUrl
              (sortBy (fun a b => decide (a.displayName ≤ b.displayName)) r.1))
      rw [hr]
      rfl
    · rw [getTableMetadata_set]
    · refine Or.inr ?_
      intro t ht
      rcases hmem t ((mem_sortBy _ t r.1).mp ht) with h1 | h1
      · simp at h1
      · exact h1
  · -- cache hit: served as-is, state unchanged
    have hst := getTableMetadata_hit_state st env.now env.dataverseUrl cached hc
    refine ⟨cached, (getTableMetadata st env.now env.dataverseUrl).2, ?_, ?_, Or.inl rfl⟩
    · unfold listTables
      simp only [hc]
      rfl
    · rw [hst, hc]

end MetadataService

end DV

/-- C8 (amended): provided the embedded table-list refresh cannot fail (a user
id is available and the remote privilege and entity-definition queries
succeed), `resolveLogicalName` does not throw, and when no resolution step
matches the identifier — the reverse and forward caches miss, the cached
table list (if any) has no table with that collection name, and no fetched
entity definition yields that collection name — it returns the raw input
unchanged. When the refresh does fail, the exception propagates
(`c8_counterexample_refresh_error_propagates`). -/
theorem c8_unresolved_returns_raw (env : DV.MetadataService.MetaEnv)
    (st0 : DV.MetadataCacheService.CacheState) (raw uid : String) (ps : List String)
    (hu : env.userId = some uid) (hp : env.privileges = .ok ps)
    (he : ∀ b, ∃ ds, env.entityDefs b = .ok ds)
    (hrev : DV.truthyStr (DV.MetadataCacheService.getReverseEntitySetName
        (DV.MetadataCacheService.ensureSystemEntities st0 env.now env.dataverseUrl)
        env.now env.dataverseUrl raw).1 = false)
    (hfwd : DV.truthyStr (DV.MetadataCacheService.getEntitySetName
        (DV.MetadataCacheService.getReverseEntitySetName
          (DV.MetadataCacheService.ensureSystemEntities st0 env.now env.dataverseUrl)
          env.now env.dataverseUrl raw).2
        env.now env.dataverseUrl raw).1 = false)
    (hcached : ∀ ts, (DV.MetadataCacheService.getTableMetadata
        (DV.MetadataCacheService.getEntitySetName
          (DV.MetadataCacheService.getReverseEntitySetName
            (DV.MetadataCacheService.ensureSystemEntities st0 env.now env.dataverseUrl)
            env.now env.dataverseUrl raw).2
          env.now env.dataverseUrl raw).2 env.now env.dataverseUrl).1 = some ts →
        ∀ t ∈ ts, t.collectionName ≠ some raw)
    (hfetched : ∀ b ds d, env.entityDefs b = .ok ds → d ∈ ds →
        (DV.MetadataService.tableOfEntityDef d).collectionName ≠ some raw) :
    DV.resName (DV.MetadataService.resolveLogicalName env st0 raw) = some raw := by
  set st1 := DV.MetadataCacheService.ensureSystemEntities st0 env.now env.dataverseUrl with hst1
  set r1 := DV.MetadataCacheService.getReverseEntitySetName st1 env.now env.dataverseUrl raw
    with hr1
  set r2 := DV.MetadataCacheService.getEntitySetName r1.2 env.now env.dataverseUrl raw with hr2
  set r3 := DV.MetadataCacheService.getTableMetadata r2.2 env.now env.dataverseUrl with hr3
  obtain ⟨ts', st', hlt, hread, hdisj⟩ :=
    DV.MetadataService.listTables_spec env r3.2 uid ps hu hp he
  have hNoMatch : ∀ t ∈ ts', t.collectionName ≠ some raw := by
    rcases hdisj with hL | hR
    · rcases hm3 : r3.1 with _ | ts
      · rw [DV.MetadataService.getTableMetadata_miss_again r2.2 env.now env.dataverseUrl
          (by rw [← hr3]; exact hm3)] at hL
        · simp [← hr3] at hL
      · have hst3 : r3.2 = r2.2 :=
          DV.MetadataService.getTableMetadata_hit_state r2.2 env.now env.dataverseUrl ts
            (by rw [← hr3]; exact hm3)
        rw [hst3, ← hr3] at hL
        rw [hm3] at hL
        obtain rfl : ts = ts' := by injection hL
        exact hcached ts hm3
    · intro t ht
      obtain ⟨b, ds, d, hds, hd, rfl⟩ := hR t ht
      exact hfetched b ds d hds hd
  have hfind2 : ts'.find? (fun t => decide (t.collectionName = some raw)) = none := by
    rw [List.find?_eq_none]
    intro t ht
    simpa using hNoMatch t ht
  unfold DV.MetadataService.resolveLogicalName
  simp only [← hst1, ← hr1, ← hr2, ← hr3, hrev, hfwd, Bool.false_eq_true, if_false]
  have hmatched : (match r3.1 with
      | some allTables =>
        allTables.find? (fun t => decide (t.collectionName = some raw))
      | none => none) = (none : Option DV.TableMetadata) := by
    rcases hm3 : r3.1 with _ | ts
    · rfl
    · rcases hdisj with hL | _
      · have hst3 : r3.2 = r2.2 :=
          DV.MetadataService.getTableMetadata_hit_state r2.2 env.now env.dataverseUrl ts
            (by rw [← hr3]; exact hm3)
        rw [hst3, ← hr3, hm3] at hL
        obtain rfl : ts = ts' := by injection hL
        exact hfind2
      · rw [List.find?_eq_none]
        intro t ht
        rcases hm3' : r3.1 with _ | ts2
        · rw [hm3'] at hm3; cases hm3
        · have : ∀ x ∈ ts, x.collectionName ≠ some raw := by
            intro x hx
            exact hcached ts hm3 x hx
          simpa using this t ht
  rw [hmatched]
  rw [hlt]
  show DV.resName
      (let r4 := DV.MetadataCacheService.getTableMetadata st' env.now env.dataverseUrl
       let matched2 : Option DV.TableMetadata := match r4.1 with
         | some allTables2 =>
           allTables2.find? (fun t => decide (t.collectionName = some raw))
         | none => none
       match matched2 with
       | some m => pure (m.logicalName, r4.2)
       | none => pure (raw, r4.2))
    = some raw
  simp only [hread, hfind2]
  rfl

/-- Witness for `c8_unresolved_returns_raw`: a fresh cache, an initialized
service whose remote yields no tables, and an unknown identifier. -/
theorem c8_unresolved_returns_raw_witness :
    DV.resName (DV.MetadataService.resolveLogicalName DV.liveEnv
        DV.MetadataCacheService.emptyCache "widgets") = some "widgets" :=
  c8_unresolved_returns_raw DV.liveEnv DV.MetadataCacheService.emptyCache
    "widgets" "uid" [] rfl rfl (fun _ => ⟨[], rfl⟩) (by decide) (by decide)
    (fun _ h => Option.noConfusion h)
    (by intro b ds d hds hd; injection hds with h; subst h; cases hd)

namespace DV

theorem determineImportantFields_le_15 (es : String)
    (attrs : List MetadataService.AttributeMetadata)
    (sample : Except String (List MetadataService.SampleRec)) :
    (MetadataService.determineImportantFields es attrs sample).length ≤ 15 := by
  unfold MetadataService.determineImportantFields
  rcases sample with e | records
  · unfold MetadataService.getImportantFieldsFromMetadata
    simp [List.length_take]
  · by_cases h : records.length = 0
    · unfold MetadataService.getImportantFieldsFromMetadata
      simp [h, List.length_take]
    · simp [h, List.length_take]

theorem length_filter_le_three {α : Type} (P Q1 Q2 Q3 : α → Bool) (l : List α)
    (h : ∀ a, P a = true → Q1 a = true ∨ Q2 a = true ∨ Q3 a = true) :
    (l.filter P).length ≤
      (l.filter Q1).length + (l.filter Q2).length + (l.filter Q3).length := by
  induction l with
  | nil => simp
  | cons x xs ih =>
    have hQ := h x
    by_cases hP : P x = true <;> by_cases h1 : Q1 x = true <;>
      by_cases h2 : Q2 x = true <;> by_cases h3 : Q3 x = true <;>
      simp only [List.filter_cons, hP, h1, h2, h3, if_true, if_false,
        List.length_cons, Bool.false_eq_true, ite_true, ite_false] <;>
      first
        | omega
        | (exact absurd (hQ hP) (by simp [h1, h2, h3]))

theorem length_filter_contains_le {α : Type} (name : α → String) (l : List α)
    (imp : List String) (hnd : (l.map name).Nodup) :
    (l.filter (fun a => imp.contains (name a))).length ≤ imp.length := by
  have hsub : (l.filter (fun a => imp.contains (name a))).map name ⊆ imp := by
    intro x hx
    simp only [List.mem_map] at hx
    obtain ⟨a, ha, rfl⟩ := hx
    have := List.of_mem_filter ha
    simpa using this
  have hnd2 : ((l.filter (fun a => imp.contains (name a))).map name).Nodup := by
    have hsl : List.Sublist ((l.filter (fun a => imp.contains (name a))).map name)
        (l.map name) := (List.filter_sublist l).map name
    exact hnd.sublist hsl
  have := (List.subperm_of_subset hnd2 hsub).length_le
  simpa using this

end DV

namespace DV

theorem describeTableCompute_attrs_important (em : MetadataService.EntityMeta)
    (es : String) (sample : Except String (List MetadataService.SampleRec))
    (nowISO : String) :
    (MetadataService.describeTableCompute em es sample false nowISO).attributes
      = (em.attributes.filter (fun attr =>
          attr.isValidForRead
            && ((MetadataService.determineImportantFields es em.attributes
                sample).contains attr.logicalName
              || attr.isPrimaryId || attr.isPrimaryName))).map
          (fun attr => MetadataService.createAttributeDescription attr nowISO) := rfl

end DV

/-- C1 (amended): for a schema with pairwise distinct attribute logical names
and at most one primary-id and one primary-name attribute, the important-only
table description holds at most 17 attributes — the ≤ 15 scored important
fields plus the force-included primary-id and primary-name attributes, which
the scorer may have excluded (for example a read-only primary id) — and it
always contains the primary-id and the primary-name attribute whenever they
are readable (that is, present in the full variant of the schema). The
original bound of 15 is refuted by `c1_counterexample_16_attributes`. -/
theorem c1_important_description_bound (em : DV.MetadataService.EntityMeta)
    (es : String) (sample : Except String (List DV.MetadataService.SampleRec))
    (nowISO : String)
    (hnd : (em.attributes.map (fun a => a.logicalName)).Nodup)
    (hpid : (em.attributes.filter (fun a => a.isPrimaryId)).length ≤ 1)
    (hpname : (em.attributes.filter (fun a => a.isPrimaryName)).length ≤ 1) :
    (DV.MetadataService.describeTableCompute em es sample false nowISO).attributes.length ≤ 17 ∧
    (∀ a ∈ em.attributes, a.isValidForRead = true → a.isPrimaryId = true →
      ∃ d ∈ (DV.MetadataService.describeTableCompute em es sample false nowISO).attributes,
        d.logicalName = a.logicalName ∧ d.isPrimaryId = true) ∧
    (∀ a ∈ em.attributes, a.isValidForRead = true → a.isPrimaryName = true →
      ∃ d ∈ (DV.MetadataService.describeTableCompute em es sample false nowISO).attributes,
        d.logicalName = a.logicalName ∧ d.isPrimaryName = true) := by
  rw [DV.describeTableCompute_attrs_important]
  set imp := DV.MetadataService.determineImportantFields es em.attributes sample with himp
  refine ⟨?_, ?_, ?_⟩
  · rw [List.length_map]
    have h3 := DV.length_filter_le_three
      (fun attr => attr.isValidForRead
        && (imp.contains attr.logicalName || attr.isPrimaryId || attr.isPrimaryName))
      (fun attr => imp.contains attr.logicalName)
      (fun attr => attr.isPrimaryId)
      (fun attr => attr.isPrimaryName)
      em.attributes
      (by
        intro a hPa
        simp only [Bool.and_eq_true, Bool.or_eq_true] at hPa
        rcases hPa.2 with (h | h) | h
        · exact Or.inl h
        · exact Or.inr (Or.inl h)
        · exact Or.inr (Or.inr h))
    have hq1' := DV.length_filter_contains_le (fun a => a.logicalName) em.attributes imp hnd
    have hq1 : (em.attributes.filter (fun attr => imp.contains attr.logicalName)).length
        ≤ imp.length := hq1'
    have h15 : imp.length ≤ 15 := by
      rw [himp]; exact DV.determineImportantFields_le_15 es em.attributes sample
    omega
  · intro a ha hread hpid'
    refine ⟨DV.MetadataService.createAttributeDescription a nowISO,
      List.mem_map_of_mem _ (List.mem_filter.mpr ⟨ha, by simp [hread, hpid']⟩), rfl, ?_⟩
    simpa [DV.MetadataService.createAttributeDescription] using hpid'
  · intro a ha hread hpn
    refine ⟨DV.MetadataService.createAttributeDescription a nowISO,
      List.mem_map_of_mem _ (List.mem_filter.mpr ⟨ha, by simp [hread, hpn]⟩), rfl, ?_⟩
    simpa [DV.MetadataService.createAttributeDescription] using hpn

/-- Witness for `c1_important_description_bound` on the 16-attribute schema. -/
theorem c1_important_description_bound_witness :
    (DV.MetadataService.describeTableCompute DV.em16 "widgets" DV.sampleC1 false
      "T").attributes.length ≤ 17 ∧
    (∀ a ∈ DV.em16.attributes, a.isValidForRead = true → a.isPrimaryId = true →
      ∃ d ∈ (DV.MetadataService.describeTableCompute DV.em16 "widgets" DV.sampleC1 false
        "T").attributes, d.logicalName = a.logicalName ∧ d.isPrimaryId = true) ∧
    (∀ a ∈ DV.em16.attributes, a.isValidForRead = true → a.isPrimaryName = true →
      ∃ d ∈ (DV.MetadataService.describeTableCompute DV.em16 "widgets" DV.sampleC1 false
        "T").attributes, d.logicalName = a.logicalName ∧ d.isPrimaryName = true) :=
  c1_important_description_bound DV.em16 "widgets" DV.sampleC1 "T"
    (by decide) (by decide) (by decide)

/-- C1 counterexample: with a readable but non-writable primary id (excluded
from scoring as a read-only computed attribute) and fifteen scored required
fields, the important-only description of `describeTable(t, full=false)`
contains 16 attributes, refuting the claimed bound of 15. -/
theorem c1_counterexample_16_attributes :
    ¬ ((DV.MetadataService.describeTableCompute DV.em16 "widgets" DV.sampleC1 false
      "T").attributes.length ≤ 15) := by
  decide

namespace DV

theorem jsObjHas_jsObjSet (o : JsObj) (k : String) (v : Jv) :
    jsObjHas (jsObjSet o k v) k = true := by
  induction o with
  | nil => simp [jsObjSet, jsObjHas, jsObjGet]
  | cons e es ih =>
    by_cases h : e.1 = k
    · simp [jsObjSet, jsObjHas, jsObjGet, h]
    · simp [jsObjSet, jsObjHas, jsObjGet, h] at ih ⊢
      exact ih

open DataMutationService in
theorem processPayload_injects_currency (env : MutEnv) (tableName : String)
    (data : JsObj) (recordId : Option String) (td : TableDescription) (pd : JsObj)
    (hdesc : env.describe tableName true = .ok td)
    (hcur : td.attributes.any (fun a => a.logicalName == "transactioncurrencyid") = true)
    (hnot : jsObjHas data "transactioncurrencyid" = false)
    (hok : processPayload env tableName data recordId = .ok pd) :
    jsObjHas pd "transactioncurrencyid@odata.bind" = true := by
  unfold processPayload at hok
  rw [hdesc] at hok
  rcases hl : payloadLoop env td (normalizeSpecialPatterns data) [] with e | processed
  · simp [hl] at hok
  · simp only [hl, hcur, hnot, Bool.not_false, Bool.and_self, if_true] at hok
    rcases hb : env.baseCurrencyId with e | currencyId
    · simp [hb] at hok
    · rcases hes : env.entitySet "transactioncurrency" with e | entitySetName
      · simp [hb, hes] at hok
      · simp only [hb, hes] at hok
        obtain rfl : jsObjSet processed "transactioncurrencyid@odata.bind"
            (.vStr ("/" ++ entitySetName ++ "(" ++ currencyId ++ ")")) = pd := by
          injection hok
        exact jsObjHas_jsObjSet processed _ _

end DV

/-- C5: the validator's `@odata.bind` sibling acceptance is keyed to the type
strings `"Lookup"`/`"Customer"`/`"Owner"`, but every attribute description
this repository builds carries `AttributeTypeName.Value` strings
(`"LookupType"` etc., as `processPayload`'s own dispatch confirms). So for a
schema whose only required field is a lookup of type `"LookupType"`, a create
payload supplying the field only through `customerid@odata.bind` is still
rejected with an aggregated missing-attributes error naming `customerid` —
while the same data passes when the type string is the `"Lookup"` the check
expects. The claim's sibling-key clause is right about the intent and the
code's dead check is the slip. -/
theorem c5_sibling_key_not_recognized :
    (DV.MetadataService.createAttributeDescription DV.lookupReqMeta "T").type
      = "LookupType" ∧
    (DV.excErr (DV.DataMutationService.validateRequiredAttributes
      (DV.mutEnvOf DV.tdC5) "account" DV.dataC5)).isSome = true ∧
    DV.strHas ((DV.excErr (DV.DataMutationService.validateRequiredAttributes
      (DV.mutEnvOf DV.tdC5) "account" DV.dataC5)).getD "") "customerid" = true ∧
    DV.DataMutationService.validateRequiredAttributes
      (DV.mutEnvOf DV.tdC5Legacy) "account" DV.dataC5 = .ok () := by
  refine ⟨rfl, by decide, by decide, by rfl⟩

/-- C6 counterexample: an update payload for a table with a currency
attribute, whose input does not supply `transactioncurrencyid`, comes out of
the payload builder with an auto-injected
`transactioncurrencyid@odata.bind` reference — the claim that update payloads
never receive the auto-injected currency is false on this run. -/
theorem c6_counterexample_update_injects_currency :
    DV.jsObjHas DV.dataC6 "transactioncurrencyid" = false ∧
    (match DV.DataMutationService.updateRecordPayload DV.envC6 "invoice"
        "33333333-3333-3333-3333-333333333333" DV.dataC6 with
      | .ok p => DV.jsObjHas p.2 "transactioncurrencyid@odata.bind"
      | .error _ => false) = true := by
  exact ⟨by decide, by decide⟩

/-- C6 (amended): the base-currency auto-injection lives in `processPayload`,
which both the create and the update path call, and it is not conditioned on
the `recordId` parameter that distinguishes updates: every successfully built
payload — update payloads included — for a table with a
`transactioncurrencyid` attribute whose input omits that field contains the
auto-injected currency reference. -/
theorem c6_update_payload_gets_injected_currency
    (env : DV.DataMutationService.MutEnv) (tableName recordId : String)
    (data : DV.JsObj) (td : DV.TableDescription) (es : String) (pd : DV.JsObj)
    (hdesc : env.describe tableName true = .ok td)
    (hcur : td.attributes.any (fun a => a.logicalName == "transactioncurrencyid") = true)
    (hnot : DV.jsObjHas data "transactioncurrencyid" = false)
    (hok : DV.DataMutationService.updateRecordPayload env tableName recordId data
      = .ok (es, pd)) :
    DV.jsObjHas pd "transactioncurrencyid@odata.bind" = true := by
  unfold DV.DataMutationService.updateRecordPayload at hok
  rcases he : env.entitySet tableName with e | es'
  · simp [he] at hok
  · rcases hp : DV.DataMutationService.processPayload env tableName data (some recordId)
      with e | pd'
    · simp [he, hp] at hok
    · simp only [he, hp] at hok
      injection hok with h
      have h2 : pd' = pd := congrArg Prod.snd h
      rw [← h2]
      exact DV.processPayload_injects_currency env tableName data (some recordId)
        td pd' hdesc hcur hnot hp

/-- Witness for `c6_update_payload_gets_injected_currency` on the concrete
invoice run. -/
theorem c6_update_payload_gets_injected_currency_witness :
    DV.jsObjHas
      [("name", DV.Jv.vStr "INV-0042"),
       ("transactioncurrencyid@odata.bind",
        DV.Jv.vStr "/transactioncurrencies(22222222-2222-2222-2222-222222222222)")]
      "transactioncurrencyid@odata.bind" = true :=
  c6_update_payload_gets_injected_currency DV.envC6 "invoice"
    "33333333-3333-3333-3333-333333333333" DV.dataC6 DV.tdC6 "invoices"
    [("name", DV.Jv.vStr "INV-0042"),
     ("transactioncurrencyid@odata.bind",
      DV.Jv.vStr "/transactioncurrencies(22222222-2222-2222-2222-222222222222)")]
    rfl (by decide) (by decide) rfl

/-- C10: any string lookup value containing both a `(` and a `)` — including
a primary-name value such as `"Acme (Europe)"` that is not in
`collection(guid)` wire form — is returned unchanged by `resolveLookup`,
before the attribute's targets are read and with no remote consultation
(empty query trace), so such values are never name-resolved and never
rejected. -/
theorem c10_paren_string_passes_through (env : DV.DataMutationService.MutEnv)
    (attr : DV.AttributeDescription) (s : String)
    (h1 : DV.strHas s "(" = true) (h2 : DV.strHas s ")" = true) :
    DV.DataMutationService.resolveLookup env attr (.vStr s) = (.ok s, []) := by
  unfold DV.DataMutationService.resolveLookup
  simp [DV.DataMutationService.isStrJv, DV.DataMutationService.strOf, h1, h2]

/-- Witness for `c10_paren_string_passes_through`: the primary-name-like
value `"Acme (Europe)"` against a polymorphic attribute with two declared
targets, in an environment whose every remote endpoint would fail if
consulted. -/
theorem c10_paren_string_passes_through_witness :
    DV.DataMutationService.resolveLookup (DV.mutEnvOf DV.tdC5) DV.attrC10
      (.vStr "Acme (Europe)") = (.ok "Acme (Europe)", []) :=
  c10_paren_string_passes_through (DV.mutEnvOf DV.tdC5) DV.attrC10
    "Acme (Europe)" (by decide) (by decide)
